import Mathlib

/-!
Verification of the LDAP protocol codec (`proto` crate: `src/proto/src/proto.rs`
and the framing codec in `src/proto/src/lib.rs`).

The development shallowly embeds the code:

* `StructureTag` models `lber::structure::StructureTag`; its two payload forms
  `PL::P` / `PL::C` are fused into the constructors `prim` / `cons`.
* Rust `String` values are modelled by their UTF-8 byte sequences
  (`List Nat`), with `String.from_utf8` modelled by a UTF-8 validity check.
* The external BER byte layer (the `lber` crate's writer and `Parser`) is
  modelled from the spec by `berEncode` (definite-length BER serialisation)
  and the fuel-indexed parser `parseBer`, and the round-trip of that layer is
  proved rather than assumed.
* Each `From`/`TryFrom` impl of the source becomes a Lean function of the
  same shape; `cfg!(feature = "strict")` becomes an explicit `strict : Bool`
  argument.
-/

namespace LdapProto

/-- Model of `lber::common::TagClass`. -/
inductive TagClass where
  | universal
  | application
  | context
  | priv
  deriving DecidableEq, Repr

/-- Model of `lber::structure::StructureTag`.  The payload alternatives
`PL::P(Vec<u8>)` and `PL::C(Vec<StructureTag>)` are fused into the two
constructors. -/
inductive StructureTag where
  | prim (cls : TagClass) (id : Nat) (bytes : List Nat)
  | cons (cls : TagClass) (id : Nat) (children : List StructureTag)
  deriving Repr

namespace StructureTag

mutual

def beq : StructureTag → StructureTag → Bool
  | .prim c i bs, .prim c' i' bs' => c == c' && i == i' && bs == bs'
  | .cons c i cs, .cons c' i' cs' => c == c' && i == i' && beqList cs cs'
  | _, _ => false

def beqList : List StructureTag → List StructureTag → Bool
  | [], [] => true
  | t :: ts, t' :: ts' => beq t t' && beqList ts ts'
  | _, _ => false

end

mutual

theorem beq_refl : ∀ t : StructureTag, beq t t = true
  | .prim c i bs => by simp [beq]
  | .cons c i cs => by simp [beq, beqList_refl cs]

theorem beqList_refl : ∀ ts : List StructureTag, beqList ts ts = true
  | [] => by simp [beqList]
  | t :: ts => by simp [beqList, beq_refl t, beqList_refl ts]

end

mutual

theorem eq_of_beq : ∀ t t' : StructureTag, beq t t' = true → t = t'
  | .prim c i bs, .prim c' i' bs' => by
      simp only [beq, Bool.and_eq_true, beq_iff_eq]
      rintro ⟨⟨rfl, rfl⟩, rfl⟩; rfl
  | .prim _ _ _, .cons _ _ _ => by simp [beq]
  | .cons _ _ _, .prim _ _ _ => by simp [beq]
  | .cons c i cs, .cons c' i' cs' => by
      simp only [beq, Bool.and_eq_true, beq_iff_eq]
      rintro ⟨⟨rfl, rfl⟩, h⟩
      rw [eqList_of_beqList cs cs' h]

theorem eqList_of_beqList : ∀ ts ts' : List StructureTag,
    beqList ts ts' = true → ts = ts'
  | [], [] => by simp
  | [], _ :: _ => by simp [beqList]
  | _ :: _, [] => by simp [beqList]
  | t :: ts, t' :: ts' => by
      simp only [beqList, Bool.and_eq_true]
      rintro ⟨h1, h2⟩
      rw [eq_of_beq t t' h1, eqList_of_beqList ts ts' h2]

end

instance : DecidableEq StructureTag := fun t t' =>
  decidable_of_iff (beq t t' = true)
    ⟨eq_of_beq t t', fun h => h ▸ beq_refl t⟩

end StructureTag

namespace StructureTag

def cls : StructureTag → TagClass
  | .prim c _ _ => c
  | .cons c _ _ => c

def id : StructureTag → Nat
  | .prim _ i _ => i
  | .cons _ i _ => i

/-- Model of `StructureTag::match_class`. -/
def match_class (c : TagClass) (t : StructureTag) : Option StructureTag :=
  if t.cls = c then some t else none

/-- Model of `StructureTag::match_id`. -/
def match_id (i : Nat) (t : StructureTag) : Option StructureTag :=
  if t.id = i then some t else none

/-- Model of `StructureTag::expect_primitive`. -/
def expect_primitive : StructureTag → Option (List Nat)
  | .prim _ _ bs => some bs
  | .cons _ _ _ => none

/-- Model of `StructureTag::expect_constructed`. -/
def expect_constructed : StructureTag → Option (List StructureTag)
  | .prim _ _ _ => none
  | .cons _ _ cs => some cs

end StructureTag

/-! ## The BER byte layer (modelled from the spec: the external `lber` crate)

`berEncode` writes a tag in definite-length BER: identifier octets (class
bits, constructed bit, tag number with the high-tag-number form for ids
above 30), then length octets (short form below 128, long form otherwise),
then the content octets.  `parseBer` is the matching parser; it is fuel
indexed because constructed contents are parsed recursively on a byte list
that is not structurally smaller. -/

def TagClass.bits : TagClass → Nat
  | .universal => 0
  | .application => 64
  | .context => 128
  | .priv => 192

/-- Minimal big-endian base-128 digit list of a natural number. -/
def base128Groups (n : Nat) : List Nat :=
  if _h : n < 128 then [n]
  else base128Groups (n / 128) ++ [n % 128]
  decreasing_by exact Nat.div_lt_self (by omega) (by omega)

/-- Set the continuation bit on every digit except the last. -/
def markCont : List Nat → List Nat
  | [] => []
  | [g] => [g]
  | g :: gs => (g + 128) :: markCont gs

/-- Identifier octets of a BER tag. -/
def identOctets (c : TagClass) (constructed : Bool) (i : Nat) : List Nat :=
  let cbit : Nat := if constructed then 32 else 0
  if i < 31 then [c.bits + cbit + i]
  else (c.bits + cbit + 31) :: markCont (base128Groups i)

/-- Minimal big-endian base-256 digit list of a natural number. -/
def base256Groups (n : Nat) : List Nat :=
  if _h : n < 256 then [n]
  else base256Groups (n / 256) ++ [n % 256]
  decreasing_by exact Nat.div_lt_self (by omega) (by omega)

/-- Length octets of a BER definite length. -/
def lenOctets (n : Nat) : List Nat :=
  if n < 128 then [n]
  else (128 + (base256Groups n).length) :: base256Groups n

mutual

/-- Definite-length BER serialisation of one tag. -/
def berEncode : StructureTag → List Nat
  | .prim c i bs => identOctets c false i ++ lenOctets bs.length ++ bs
  | .cons c i cs =>
      let content := berEncodeList cs
      identOctets c true i ++ lenOctets content.length ++ content

/-- Concatenated serialisation of a list of tags. -/
def berEncodeList : List StructureTag → List Nat
  | [] => []
  | t :: ts => berEncode t ++ berEncodeList ts

end

/-- Big-endian value of a base-256 digit list. -/
def fromBytes256 (bs : List Nat) : Nat :=
  bs.foldl (fun a b => a * 256 + b) 0

/-- Big-endian value of a base-128 digit list starting from `acc`. -/
def fromGroups128 (acc : Nat) (gs : List Nat) : Nat :=
  gs.foldl (fun a b => a * 128 + b) acc

/-- Parse the base-128 tail of a high-form tag number. -/
def parseB128 (acc : Nat) : List Nat → Option (Nat × List Nat)
  | [] => none
  | b :: bs =>
      if b < 128 then some (acc * 128 + b, bs)
      else parseB128 (acc * 128 + (b - 128)) bs

/-- Parse the identifier octets: class, constructed flag, tag number. -/
def parseIdent : List Nat → Option (TagClass × Bool × Nat × List Nat)
  | [] => none
  | b :: bs =>
      if 256 ≤ b then none
      else
        let c : TagClass :=
          if b / 64 = 0 then .universal
          else if b / 64 = 1 then .application
          else if b / 64 = 2 then .context
          else .priv
        let constructed : Bool := b / 32 % 2 = 1
        let low := b % 32
        if low < 31 then some (c, constructed, low, bs)
        else
          match parseB128 0 bs with
          | none => none
          | some (i, rest) => some (c, constructed, i, rest)

/-- Parse the length octets. -/
def parseLen : List Nat → Option (Nat × List Nat)
  | [] => none
  | b :: bs =>
      if b < 128 then some (b, bs)
      else
        let k := b - 128
        if k = 0 then none
        else if bs.length < k then none
        else some (fromBytes256 (bs.take k), bs.drop k)

mutual

/-- Fuel-indexed parser for one BER tag; returns the tag and the unconsumed
suffix. -/
def parseBer : Nat → List Nat → Option (StructureTag × List Nat)
  | 0, _ => none
  | Nat.succ fuel, bs =>
      match parseIdent bs with
      | none => none
      | some (c, constructed, i, afterIdent) =>
          match parseLen afterIdent with
          | none => none
          | some (len, afterLen) =>
              if afterLen.length < len then none
              else
                let content := afterLen.take len
                let rest := afterLen.drop len
                if constructed then
                  match parseBerList fuel content with
                  | none => none
                  | some cs => some (.cons c i cs, rest)
                else
                  some (.prim c i content, rest)

/-- Parse a byte list into a maximal sequence of tags, requiring that the
list is consumed exactly. -/
def parseBerList : Nat → List Nat → Option (List StructureTag)
  | _, [] => some []
  | 0, _ :: _ => none
  | Nat.succ fuel, b :: bs =>
      match parseBer fuel (b :: bs) with
      | none => none
      | some (t, rest) =>
          match parseBerList fuel rest with
          | none => none
          | some ts => some (t :: ts)

end

mutual

/-- Fuel sufficient to parse the encoding of `t`. -/
def fuelOf : StructureTag → Nat
  | .prim _ _ _ => 1
  | .cons _ _ cs => 1 + fuelOfList cs

/-- Fuel sufficient to parse the concatenated encoding of `ts`. -/
def fuelOfList : List StructureTag → Nat
  | [] => 0
  | t :: ts => 1 + max (fuelOf t) (fuelOfList ts)

end

/-! ### Round-trip of the BER byte layer -/

theorem fromBytes256_append (xs : List Nat) (b : Nat) :
    fromBytes256 (xs ++ [b]) = fromBytes256 xs * 256 + b := by
  simp [fromBytes256, List.foldl_append]

theorem fromBytes256_base256Groups (n : Nat) :
    fromBytes256 (base256Groups n) = n := by
  induction n using Nat.strong_induction_on with
  | _ n ih =>
    rw [base256Groups]
    by_cases h : n < 256
    · simp [h, fromBytes256]
    · rw [dif_neg h, fromBytes256_append,
        ih (n / 256) (Nat.div_lt_self (by omega) (by omega))]
      omega

theorem base256Groups_ne_nil (n : Nat) : base256Groups n ≠ [] := by
  rw [base256Groups]
  by_cases h : n < 256 <;> simp [h]

theorem parseLen_lenOctets (n : Nat) (rest : List Nat) :
    parseLen (lenOctets n ++ rest) = some (n, rest) := by
  rw [lenOctets]
  by_cases h : n < 128
  · simp [h, parseLen]
  · rw [if_neg h]
    have hlen : (base256Groups n).length ≠ 0 := by
      simpa using base256Groups_ne_nil n
    simp only [List.cons_append, parseLen]
    rw [if_neg (by omega), if_neg (by omega)]
    have hk : 128 + (base256Groups n).length - 128 = (base256Groups n).length := by
      omega
    rw [hk, if_neg (by simp)]
    rw [List.take_left, List.drop_left, fromBytes256_base256Groups]

theorem base128Groups_lt (n : Nat) : ∀ g ∈ base128Groups n, g < 128 := by
  induction n using Nat.strong_induction_on with
  | _ n ih =>
    rw [base128Groups]
    by_cases h : n < 128
    · simp [h]
    · rw [dif_neg h]
      intro g hg
      rcases List.mem_append.mp hg with hg | hg
      · exact ih (n / 128) (Nat.div_lt_self (by omega) (by omega)) g hg
      · simp at hg; omega

theorem base128Groups_ne_nil (n : Nat) : base128Groups n ≠ [] := by
  rw [base128Groups]
  by_cases h : n < 128 <;> simp [h]

theorem fromGroups128_cons (acc g : Nat) (gs : List Nat) :
    fromGroups128 acc (g :: gs) = fromGroups128 (acc * 128 + g) gs := by
  simp [fromGroups128]

theorem fromGroups128_append (acc : Nat) (xs : List Nat) (b : Nat) :
    fromGroups128 acc (xs ++ [b]) = fromGroups128 acc xs * 128 + b := by
  simp [fromGroups128, List.foldl_append]

theorem fromGroups128_base128Groups (n : Nat) :
    fromGroups128 0 (base128Groups n) = n := by
  induction n using Nat.strong_induction_on with
  | _ n ih =>
    rw [base128Groups]
    by_cases h : n < 128
    · simp [h, fromGroups128]
    · rw [dif_neg h, fromGroups128_append,
        ih (n / 128) (Nat.div_lt_self (by omega) (by omega))]
      omega

theorem parseB128_markCont (gs : List Nat) (acc : Nat) (rest : List Nat)
    (hne : gs ≠ []) (hlt : ∀ g ∈ gs, g < 128) :
    parseB128 acc (markCont gs ++ rest) = some (fromGroups128 acc gs, rest) := by
  induction gs generalizing acc with
  | nil => exact absurd rfl hne
  | cons g gs ih =>
    cases gs with
    | nil =>
      have hg : g < 128 := hlt g (by simp)
      simp [markCont, parseB128, hg, fromGroups128]
    | cons g' gs' =>
      have hg : g < 128 := hlt g (by simp)
      rw [show markCont (g :: g' :: gs') = (g + 128) :: markCont (g' :: gs')
        from rfl]
      simp only [List.cons_append, parseB128]
      rw [if_neg (by omega)]
      have hsub : g + 128 - 128 = g := by omega
      have hrec := ih (acc * 128 + g) (List.cons_ne_nil _ _)
        (fun x hx => hlt x (List.mem_cons_of_mem _ hx))
      rw [hsub]
      simpa [fromGroups128_cons] using hrec

/-- Numeric index of a tag class, as read back from the identifier octet. -/
def clsIndex : TagClass → Nat
  | .universal => 0
  | .application => 1
  | .context => 2
  | .priv => 3

theorem parseIdent_cons (b : Nat) (bs : List Nat) (c : TagClass) (k : Bool)
    (low : Nat) (hb : b < 256) (hc : b / 64 = clsIndex c)
    (hk : b / 32 % 2 = if k then 1 else 0) (hlow : b % 32 = low) :
    parseIdent (b :: bs) =
      if low < 31 then some (c, k, low, bs)
      else
        match parseB128 0 bs with
        | none => none
        | some (i, rest) => some (c, k, i, rest) := by
  cases c <;> cases k <;>
    simp [parseIdent, clsIndex, hb, hc, hk, hlow, Nat.not_le.mpr hb]

theorem parseIdent_identOctets (c : TagClass) (k : Bool) (i : Nat)
    (rest : List Nat) :
    parseIdent (identOctets c k i ++ rest) = some (c, k, i, rest) := by
  have hbits : TagClass.bits c = 64 * clsIndex c := by
    cases c <;> simp [TagClass.bits, clsIndex]
  have hidx : clsIndex c < 4 := by cases c <;> simp [clsIndex]
  by_cases h : i < 31
  · have hb : TagClass.bits c + (if k then 32 else 0) + i < 256 := by
      cases k <;> simp <;> omega
    rw [identOctets]
    simp only [if_pos h, List.cons_append]
    rw [parseIdent_cons _ _ c k i hb
      (by cases k <;> simp at hb ⊢ <;> omega)
      (by cases k <;> simp <;> omega)
      (by cases k <;> simp <;> omega)]
    rw [if_pos h]
    simp
  · have hb : TagClass.bits c + (if k then 32 else 0) + 31 < 256 := by
      cases k <;> simp <;> omega
    rw [identOctets]
    simp only [if_neg h, List.cons_append]
    rw [parseIdent_cons _ _ c k 31 hb
      (by cases k <;> simp at hb ⊢ <;> omega)
      (by cases k <;> simp <;> omega)
      (by cases k <;> simp <;> omega)]
    rw [if_neg (by omega),
      parseB128_markCont _ _ _ (base128Groups_ne_nil i) (base128Groups_lt i),
      fromGroups128_base128Groups]

theorem identOctets_ne_nil (c : TagClass) (k : Bool) (i : Nat) :
    identOctets c k i ≠ [] := by
  rw [identOctets]
  by_cases h : i < 31 <;> simp [h]

theorem berEncode_ne_nil (t : StructureTag) : berEncode t ≠ [] := by
  cases t <;> rw [berEncode] <;>
    simp [identOctets_ne_nil]

mutual

theorem fuelOf_pos : ∀ t : StructureTag, 1 ≤ fuelOf t
  | .prim _ _ _ => by rw [fuelOf]
  | .cons _ _ cs => by rw [fuelOf]; omega

theorem fuelOfList_pos : ∀ ts : List StructureTag, ts ≠ [] → 1 ≤ fuelOfList ts
  | [], h => absurd rfl h
  | _ :: _, _ => by rw [fuelOfList]; omega

end

theorem parseBer_berEncode_aux (n : Nat) :
    (∀ t rest, fuelOf t ≤ n →
      parseBer n (berEncode t ++ rest) = some (t, rest)) ∧
    (∀ ts, fuelOfList ts ≤ n → parseBerList n (berEncodeList ts) = some ts) := by
  induction n using Nat.strong_induction_on with
  | _ n ih =>
    constructor
    · intro t rest hfuel
      have h1 : 1 ≤ fuelOf t := fuelOf_pos t
      obtain ⟨m, rfl⟩ : ∃ m, n = m + 1 := ⟨n - 1, by omega⟩
      cases t with
      | prim c i bs =>
        rw [berEncode, List.append_assoc, List.append_assoc, parseBer]
        have hlt : ¬ ((bs ++ rest).length < bs.length) := by
          simp [List.length_append]
        simp only [parseIdent_identOctets, parseLen_lenOctets, hlt, if_false,
          List.take_left, List.drop_left]
        rfl
      | cons c i cs =>
        rw [berEncode, List.append_assoc, List.append_assoc, parseBer]
        have hlt : ¬ ((berEncodeList cs ++ rest).length <
            (berEncodeList cs).length) := by
          simp [List.length_append]
        have hm : fuelOfList cs ≤ m := by rw [fuelOf] at hfuel; omega
        simp only [parseIdent_identOctets, parseLen_lenOctets, hlt, if_false,
          List.take_left, List.drop_left]
        rw [if_pos trivial, (ih m (by omega)).2 cs hm]
    · intro ts hfuel
      cases ts with
      | nil => simp [berEncodeList, parseBerList]
      | cons t ts =>
        rw [fuelOfList] at hfuel
        obtain ⟨m, rfl⟩ : ∃ m, n = m + 1 := ⟨n - 1, by omega⟩
        rw [berEncodeList]
        have hne : berEncode t ++ berEncodeList ts ≠ [] := by
          simp [berEncode_ne_nil t]
        obtain ⟨b, bs, hbs⟩ : ∃ b bs, berEncode t ++ berEncodeList ts = b :: bs := by
          cases hx : berEncode t ++ berEncodeList ts with
          | nil => exact absurd hx hne
          | cons b bs => exact ⟨b, bs, rfl⟩
        have e1 := (ih m (by omega)).1 t (berEncodeList ts) (by omega)
        have e2 := (ih m (by omega)).2 ts (by omega)
        rw [hbs, parseBerList, ← hbs]
        simp only [e1, e2]

/-- Parsing the serialisation of a tag (followed by anything) returns exactly
that tag and the trailing bytes, given sufficient fuel. -/
theorem parseBer_berEncode (n : Nat) (t : StructureTag) (rest : List Nat)
    (hfuel : fuelOf t ≤ n) :
    parseBer n (berEncode t ++ rest) = some (t, rest) :=
  (parseBer_berEncode_aux n).1 t rest hfuel

mutual

theorem fuelOf_le_length : ∀ t : StructureTag, fuelOf t ≤ (berEncode t).length
  | .prim c i bs => by
      rw [fuelOf, berEncode]
      have h2 : 0 < (identOctets c false i).length :=
        List.length_pos.mpr (identOctets_ne_nil c false i)
      simp only [List.length_append]
      omega
  | .cons c i cs => by
      rw [fuelOf, berEncode]
      have h1 := fuelOfList_le_length cs
      have h2 : 0 < (identOctets c true i).length :=
        List.length_pos.mpr (identOctets_ne_nil c true i)
      have h3 : (lenOctets (berEncodeList cs).length).length ≥ 1 := by
        rw [lenOctets]
        by_cases h : (berEncodeList cs).length < 128 <;> simp [h]
      simp only [List.length_append]
      omega

theorem fuelOfList_le_length :
    ∀ ts : List StructureTag, fuelOfList ts ≤ (berEncodeList ts).length + 1
  | [] => by rw [fuelOfList]; omega
  | t :: ts => by
      rw [fuelOfList, berEncodeList]
      have h1 := fuelOf_le_length t
      have h2 := fuelOfList_le_length ts
      have h3 : 0 < (berEncode t).length :=
        List.length_pos.mpr (berEncode_ne_nil t)
      simp only [List.length_append]
      omega

end

/-- Model of the `lber` `Parser` as invoked by the code: parse one tag from
the front of the buffer, with enough fuel for any input that round-trips. -/
def parseBerFull (bs : List Nat) : Option (StructureTag × List Nat) :=
  parseBer (bs.length + 1) bs

theorem parseBerFull_berEncode (t : StructureTag) (rest : List Nat) :
    parseBerFull (berEncode t ++ rest) = some (t, rest) := by
  rw [parseBerFull]
  refine parseBer_berEncode _ t rest ?_
  have h1 := fuelOf_le_length t
  simp only [List.length_append]
  omega

/-! ## The typed tag layer (modelled from the spec: `lber::structures`)

The code builds `Tag` values (`Integer`, `OctetString`, `Boolean`,
`Enumerated`, `Sequence`, `Set`, `ExplicitTag`, `Null`) and lowers them with
`ASNTag::into_structure`.  Integers are written in minimal big-endian
two's-complement form. -/

/-- The 8-byte big-endian two's-complement representation of an `i64`. -/
def i64_to_be_bytes (i : Int) : List Nat :=
  (List.range 8).map (fun k => (i % (2 ^ 64 : Int)).toNat / 256 ^ (7 - k) % 256)

/-- Drop redundant leading `0x00`/`0xff` octets of a two's-complement
big-endian integer. -/
def trimBerInt : List Nat → List Nat
  | [] => []
  | [b] => [b]
  | b0 :: b1 :: bs =>
      if b0 = 0 ∧ b1 < 128 then trimBerInt (b1 :: bs)
      else if b0 = 255 ∧ 128 ≤ b1 then trimBerInt (b1 :: bs)
      else b0 :: b1 :: bs

/-- Minimal big-endian two's-complement content octets of an `i64`, as the
BER writer produces for `Integer` and `Enumerated` tags. -/
def berIntEncode (i : Int) : List Nat :=
  trimBerInt (i64_to_be_bytes i)

/-- Model of `lber::structures::Tag` restricted to the constructors the code
uses. -/
inductive Tag where
  | integer (cls : TagClass) (id : Nat) (inner : Int)
  | boolean (cls : TagClass) (id : Nat) (inner : Bool)
  | octetString (cls : TagClass) (id : Nat) (inner : List Nat)
  | enumerated (cls : TagClass) (id : Nat) (inner : Int)
  | sequence (cls : TagClass) (id : Nat) (inner : List Tag)
  | set (cls : TagClass) (id : Nat) (inner : List Tag)
  | explicitTag (cls : TagClass) (id : Nat) (inner : Tag)
  | null (cls : TagClass) (id : Nat)

mutual

/-- Model of `ASNTag::into_structure`. -/
def Tag.into_structure : Tag → StructureTag
  | .integer c i v => .prim c i (berIntEncode v)
  | .boolean c i b => .prim c i [if b then 255 else 0]
  | .octetString c i bs => .prim c i bs
  | .enumerated c i v => .prim c i (berIntEncode v)
  | .sequence c i ts => .cons c i (intoStructureList ts)
  | .set c i ts => .cons c i (intoStructureList ts)
  | .explicitTag c i t => .cons c i [t.into_structure]
  | .null c i => .prim c i []

def intoStructureList : List Tag → List StructureTag
  | [] => []
  | t :: ts => t.into_structure :: intoStructureList ts

end

/-! ## Primitive decoders from the source (`proto.rs`) -/

/-- `i64::from_be_bytes` on an 8-byte big-endian buffer. -/
def i64_from_be_bytes (raw : List Nat) : Int :=
  let u := fromBytes256 raw
  if u < 2 ^ 63 then (u : Int) else (u : Int) - 2 ^ 64

/-- Model of `ber_integer_to_i64` (`proto.rs`): inputs longer than 8 bytes
are rejected, shorter inputs are right-aligned into an 8-byte zero-padded
buffer read as a signed big-endian 64-bit integer. -/
def ber_integer_to_i64 (bv : List Nat) : Option Int :=
  if 8 < bv.length then none
  else some (i64_from_be_bytes (List.replicate (8 - bv.length) 0 ++ bv))

/-- Model of `ber_bool_to_bool` (`proto.rs`). -/
def ber_bool_to_bool (bv : List Nat) : Option Bool :=
  bv.head?.map (fun v => !(v = 0))

/-! ### Round-trip of the integer encoding on the non-negative range -/

theorem fromBytes256_replicate_zero (k : Nat) (bs : List Nat) :
    fromBytes256 (List.replicate k 0 ++ bs) = fromBytes256 bs := by
  induction k with
  | zero => simp
  | succ k ih =>
    rw [List.replicate_succ, List.cons_append]
    simpa [fromBytes256] using ih

theorem fromBytes256_range_map (L : Nat) (n : Nat) :
    fromBytes256 ((List.range L).map (fun k => n / 256 ^ (L - 1 - k) % 256)) =
      n % 256 ^ L := by
  induction L generalizing n with
  | zero => simp [fromBytes256, Nat.mod_one]
  | succ L ih =>
    rw [List.range_succ, List.map_append, List.map_cons, List.map_nil,
      fromBytes256_append]
    have hpre : (List.range L).map (fun k => n / 256 ^ (L + 1 - 1 - k) % 256) =
        (List.range L).map (fun k => n / 256 / 256 ^ (L - 1 - k) % 256) := by
      refine List.map_congr_left ?_
      intro k hk
      have hk' : k < L := List.mem_range.mp hk
      have hp : 256 ^ (L + 1 - 1 - k) = 256 * 256 ^ (L - 1 - k) := by
        rw [← pow_succ']
        congr 1
        omega
      rw [hp, ← Nat.div_div_eq_div_mul]
    have hL : L + 1 - 1 - L = 0 := by omega
    rw [hpre, ih (n / 256), hL]
    have h1 : n / 256 % 256 ^ L = n % 256 ^ (L + 1) / 256 := by
      rw [← Nat.mod_mul_right_div_self]
      congr 1
      rw [pow_succ]
      ring_nf
    have h2 : n % 256 = n % 256 ^ (L + 1) % 256 :=
      (Nat.mod_mod_of_dvd n (dvd_pow_self 256 (by omega))).symm
    rw [pow_zero, Nat.div_one, h1, h2]
    generalize n % 256 ^ (L + 1) = m
    omega

theorem fromBytes256_cons_zero (bs : List Nat) :
    fromBytes256 (0 :: bs) = fromBytes256 bs := by
  simp [fromBytes256]

theorem trimBerInt_spec : ∀ bs : List Nat, bs ≠ [] → bs.head! < 128 →
    fromBytes256 (trimBerInt bs) = fromBytes256 bs ∧
    (trimBerInt bs).length ≤ bs.length ∧
    trimBerInt bs ≠ [] ∧ (trimBerInt bs).head! < 128
  | [], hne, _ => absurd rfl hne
  | [b], _, hh => by
      simpa [trimBerInt] using hh
  | b0 :: b1 :: bs, _, hh => by
      have hb0 : b0 < 128 := by simpa [List.head!] using hh
      by_cases h01 : b0 = 0 ∧ b1 < 128
      · obtain ⟨rfl, hb1⟩ := h01
        have hrec := trimBerInt_spec (b1 :: bs) (List.cons_ne_nil _ _)
          (by simpa [List.head!] using hb1)
        rw [trimBerInt, if_pos (show (0 : Nat) = 0 ∧ b1 < 128 from ⟨rfl, hb1⟩)]
        refine ⟨?_, ?_, hrec.2.2.1, hrec.2.2.2⟩
        · rw [hrec.1, fromBytes256_cons_zero]
        · have h2 := hrec.2.1
          simp only [List.length_cons] at h2 ⊢
          omega
      · rw [trimBerInt, if_neg h01, if_neg (by omega)]
        exact ⟨rfl, le_refl _, List.cons_ne_nil _ _, by
          simpa [List.head!] using hb0⟩

theorem ber_integer_to_i64_berIntEncode (n : Nat) (h : n < 2 ^ 63) :
    ber_integer_to_i64 (berIntEncode (n : Int)) = some (n : Int) := by
  have hbytes : i64_to_be_bytes (n : Int) =
      (List.range 8).map (fun k => n / 256 ^ (7 - k) % 256) := by
    rw [i64_to_be_bytes]
    have hn64 : (n : Int) < 2 ^ 64 := by
      have hx : n < 2 ^ 64 := lt_trans h (by norm_num)
      exact_mod_cast hx
    have hemod : (((n : Int) % (2 ^ 64 : Int)).toNat) = n := by
      rw [Int.emod_eq_of_lt (by positivity) hn64]
      simp
    rw [hemod]
  have hval : fromBytes256 (i64_to_be_bytes (n : Int)) = n := by
    rw [hbytes]
    have := fromBytes256_range_map 8 n
    simp only [show (8 : Nat) - 1 = 7 from rfl] at this
    rw [this, Nat.mod_eq_of_lt (by norm_num; omega)]
  have hlen : (i64_to_be_bytes (n : Int)).length = 8 := by
    rw [hbytes]; simp
  have hd7 : n / 256 ^ 7 < 128 := by
    rw [Nat.div_lt_iff_lt_mul (by positivity)]
    calc n < 2 ^ 63 := h
    _ = 128 * 256 ^ 7 := by norm_num
  have hhead : (i64_to_be_bytes (n : Int)).head! < 128 := by
    rw [hbytes, show List.range 8 = [0, 1, 2, 3, 4, 5, 6, 7] from by decide]
    simp only [List.map_cons, List.head!]
    calc n / 256 ^ (7 - 0) % 256 ≤ n / 256 ^ 7 := by
          simp only [Nat.sub_zero]
          exact Nat.mod_le _ _
    _ < 128 := hd7
  have hne : i64_to_be_bytes (n : Int) ≠ [] := by
    intro hx; rw [hx] at hlen; simp at hlen
  obtain ⟨hv, hl, hne2, _⟩ := trimBerInt_spec _ hne hhead
  rw [berIntEncode, ber_integer_to_i64, if_neg (by omega)]
  rw [i64_from_be_bytes]
  rw [fromBytes256_replicate_zero, hv, hval]
  rw [if_pos (by exact_mod_cast h)]

/-! ## Universal tag numbers (`lber::universal::Types`) -/

namespace Types

abbrev Boolean : Nat := 1
abbrev Integer : Nat := 2
abbrev OctetString : Nat := 4
abbrev Enumerated : Nat := 10
abbrev Sequence : Nat := 16
abbrev SetOf : Nat := 17

end Types

/-! ## Rust strings as UTF-8 byte sequences -/

/-- A Rust `String`, modelled by its UTF-8 byte sequence. -/
abbrev RStr := List Nat

/-- A UTF-8 continuation byte. -/
def isUtf8Cont (b : Nat) : Bool := 128 ≤ b ∧ b < 192

/-- Full UTF-8 validity (surrogates and overlong encodings rejected), the
acceptance condition of `String::from_utf8`. -/
def isValidUtf8 : List Nat → Bool
  | [] => true
  | b :: rest =>
    if b < 128 then isValidUtf8 rest
    else if 194 ≤ b ∧ b ≤ 223 then
      match rest with
      | c1 :: r => isUtf8Cont c1 && isValidUtf8 r
      | [] => false
    else if b = 224 then
      match rest with
      | c1 :: c2 :: r =>
          (160 ≤ c1 && c1 < 192) && isUtf8Cont c2 && isValidUtf8 r
      | _ => false
    else if 225 ≤ b ∧ b ≤ 236 then
      match rest with
      | c1 :: c2 :: r => isUtf8Cont c1 && isUtf8Cont c2 && isValidUtf8 r
      | _ => false
    else if b = 237 then
      match rest with
      | c1 :: c2 :: r =>
          (128 ≤ c1 && c1 < 160) && isUtf8Cont c2 && isValidUtf8 r
      | _ => false
    else if 238 ≤ b ∧ b ≤ 239 then
      match rest with
      | c1 :: c2 :: r => isUtf8Cont c1 && isUtf8Cont c2 && isValidUtf8 r
      | _ => false
    else if b = 240 then
      match rest with
      | c1 :: c2 :: c3 :: r =>
          (144 ≤ c1 && c1 < 192) && isUtf8Cont c2 && isUtf8Cont c3 &&
            isValidUtf8 r
      | _ => false
    else if 241 ≤ b ∧ b ≤ 243 then
      match rest with
      | c1 :: c2 :: c3 :: r =>
          isUtf8Cont c1 && isUtf8Cont c2 && isUtf8Cont c3 && isValidUtf8 r
      | _ => false
    else if b = 244 then
      match rest with
      | c1 :: c2 :: c3 :: r =>
          (128 ≤ c1 && c1 < 144) && isUtf8Cont c2 && isUtf8Cont c3 &&
            isValidUtf8 r
      | _ => false
    else false

/-- Model of `String::from_utf8`. -/
def string_from_utf8 (bv : List Nat) : Option RStr :=
  if isValidUtf8 bv then some bv else none

theorem string_from_utf8_valid {bv : List Nat} (h : isValidUtf8 bv = true) :
    string_from_utf8 bv = some bv := by
  simp [string_from_utf8, h]

/-- Model of `uuid::Uuid::from_slice`: succeeds exactly on 16-byte inputs.
`Uuid::as_bytes` is the identity on this model. -/
def uuid_from_slice (v : List Nat) : Option (List Nat) :=
  if v.length = 16 then some v else none

/-- The Rust `as i32` cast of an `i64` value (two's-complement truncation). -/
def i64_as_i32 (i : Int) : Int := (i + 2 ^ 31) % (2 ^ 32) - 2 ^ 31

theorem i64_as_i32_of_range (i : Int) (h0 : 0 ≤ i) (h1 : i < 2 ^ 31) :
    i64_as_i32 i = i := by
  rw [i64_as_i32, Int.emod_eq_of_lt (by omega) (by omega)]
  omega

/-! ## The message model (`proto.rs` data types) -/

inductive SyncRequestMode where
  | refreshOnly
  | refreshAndPersist
  deriving DecidableEq, Repr

/-- The `#[repr(i64)]` discriminant, used by `mode as i64`. -/
def SyncRequestMode.toI64 : SyncRequestMode → Int
  | .refreshOnly => 1
  | .refreshAndPersist => 3

inductive SyncStateValue where
  | present
  | add
  | modify
  | delete
  deriving DecidableEq, Repr

def SyncStateValue.toI64 : SyncStateValue → Int
  | .present => 0
  | .add => 1
  | .modify => 2
  | .delete => 3

inductive LdapControl where
  | syncRequest (criticality : Bool) (mode : SyncRequestMode)
      (cookie : Option (List Nat)) (reload_hint : Bool)
  | syncState (state : SyncStateValue) (entry_uuid : List Nat)
      (cookie : Option (List Nat))
  | syncDone (cookie : Option (List Nat)) (refresh_deletes : Bool)
  | adDirsync (flags : Int) (max_bytes : Int) (cookie : Option (List Nat))
  deriving DecidableEq, Repr

inductive LdapResultCode where
  | success
  | operationsError
  | protocolError
  | timeLimitExceeded
  | sizeLimitExceeded
  | compareFalse
  | compareTrue
  | authMethodNotSupported
  | strongerAuthRequired
  | referral
  | adminLimitExceeded
  | unavailableCriticalExtension
  | confidentialityRequired
  | saslBindInProgress
  | noSuchAttribute
  | undefinedAttributeType
  | inappropriateMatching
  | constraintViolation
  | attributeOrValueExists
  | invalidAttributeSyntax
  | noSuchObject
  | aliasProblem
  | invalidDNSyntax
  | aliasDereferencingProblem
  | inappropriateAuthentication
  | invalidCredentials
  | insufficentAccessRights
  | busy
  | unavailable
  | unwillingToPerform
  | loopDetect
  | namingViolation
  | objectClassViolation
  | notAllowedOnNonLeaf
  | notAllowedOnRDN
  | entryAlreadyExists
  | objectClassModsProhibited
  | affectsMultipleDSAs
  | other
  | esyncRefreshRequired
  deriving DecidableEq, Repr

/-- The `#[repr(i64)]` discriminant of `LdapResultCode`. -/
def LdapResultCode.toI64 : LdapResultCode → Int
  | .success => 0
  | .operationsError => 1
  | .protocolError => 2
  | .timeLimitExceeded => 3
  | .sizeLimitExceeded => 4
  | .compareFalse => 5
  | .compareTrue => 6
  | .authMethodNotSupported => 7
  | .strongerAuthRequired => 8
  | .referral => 10
  | .adminLimitExceeded => 11
  | .unavailableCriticalExtension => 12
  | .confidentialityRequired => 13
  | .saslBindInProgress => 14
  | .noSuchAttribute => 16
  | .undefinedAttributeType => 17
  | .inappropriateMatching => 18
  | .constraintViolation => 19
  | .attributeOrValueExists => 20
  | .invalidAttributeSyntax => 21
  | .noSuchObject => 32
  | .aliasProblem => 33
  | .invalidDNSyntax => 34
  | .aliasDereferencingProblem => 36
  | .inappropriateAuthentication => 48
  | .invalidCredentials => 49
  | .insufficentAccessRights => 50
  | .busy => 51
  | .unavailable => 52
  | .unwillingToPerform => 53
  | .loopDetect => 54
  | .namingViolation => 64
  | .objectClassViolation => 65
  | .notAllowedOnNonLeaf => 66
  | .notAllowedOnRDN => 67
  | .entryAlreadyExists => 68
  | .objectClassModsProhibited => 69
  | .affectsMultipleDSAs => 71
  | .other => 80
  | .esyncRefreshRequired => 4096

/-- Model of `TryFrom<i64> for LdapResultCode`. -/
def LdapResultCode.try_from (value : Int) : Option LdapResultCode :=
  if value = 0 then some .success
  else if value = 1 then some .operationsError
  else if value = 2 then some .protocolError
  else if value = 3 then some .timeLimitExceeded
  else if value = 4 then some .sizeLimitExceeded
  else if value = 5 then some .compareFalse
  else if value = 6 then some .compareTrue
  else if value = 7 then some .authMethodNotSupported
  else if value = 8 then some .strongerAuthRequired
  else if value = 10 then some .referral
  else if value = 11 then some .adminLimitExceeded
  else if value = 12 then some .unavailableCriticalExtension
  else if value = 13 then some .confidentialityRequired
  else if value = 14 then some .saslBindInProgress
  else if value = 16 then some .noSuchAttribute
  else if value = 17 then some .undefinedAttributeType
  else if value = 18 then some .inappropriateMatching
  else if value = 19 then some .constraintViolation
  else if value = 20 then some .attributeOrValueExists
  else if value = 21 then some .invalidAttributeSyntax
  else if value = 32 then some .noSuchObject
  else if value = 33 then some .aliasProblem
  else if value = 34 then some .invalidDNSyntax
  else if value = 36 then some .aliasDereferencingProblem
  else if value = 48 then some .inappropriateAuthentication
  else if value = 49 then some .invalidCredentials
  else if value = 50 then some .insufficentAccessRights
  else if value = 51 then some .busy
  else if value = 52 then some .unavailable
  else if value = 53 then some .unwillingToPerform
  else if value = 54 then some .loopDetect
  else if value = 64 then some .namingViolation
  else if value = 65 then some .objectClassViolation
  else if value = 66 then some .notAllowedOnNonLeaf
  else if value = 67 then some .notAllowedOnRDN
  else if value = 68 then some .entryAlreadyExists
  else if value = 69 then some .objectClassModsProhibited
  else if value = 71 then some .affectsMultipleDSAs
  else if value = 80 then some .other
  else if value = 4096 then some .esyncRefreshRequired
  else none

structure LdapResult where
  code : LdapResultCode
  matcheddn : RStr
  message : RStr
  referral : List RStr
  deriving DecidableEq, Repr

inductive LdapBindCred where
  | simple (pw : RStr)
  deriving DecidableEq, Repr

structure LdapBindRequest where
  dn : RStr
  cred : LdapBindCred
  deriving DecidableEq, Repr

structure LdapBindResponse where
  res : LdapResult
  saslcreds : Option RStr
  deriving DecidableEq, Repr

inductive LdapSearchScope where
  | base
  | oneLevel
  | subtree
  deriving DecidableEq, Repr

def LdapSearchScope.toI64 : LdapSearchScope → Int
  | .base => 0
  | .oneLevel => 1
  | .subtree => 2

/-- Model of `TryFrom<i64> for LdapSearchScope`. -/
def LdapSearchScope.try_from (value : Int) : Option LdapSearchScope :=
  if value = 0 then some .base
  else if value = 1 then some .oneLevel
  else if value = 2 then some .subtree
  else none

inductive LdapDerefAliases where
  | never
  | inSearching
  | findingBaseObj
  | always
  deriving DecidableEq, Repr

def LdapDerefAliases.toI64 : LdapDerefAliases → Int
  | .never => 0
  | .inSearching => 1
  | .findingBaseObj => 2
  | .always => 3

/-- Model of `TryFrom<i64> for LdapDerefAliases`. -/
def LdapDerefAliases.try_from (value : Int) : Option LdapDerefAliases :=
  if value = 0 then some .never
  else if value = 1 then some .inSearching
  else if value = 2 then some .findingBaseObj
  else if value = 3 then some .always
  else none

structure LdapSubstringFilter where
  initial : Option RStr
  any : List RStr
  final_ : Option RStr
  deriving DecidableEq, Repr

/-- `#[derive(Default)]` for `LdapSubstringFilter`. -/
def LdapSubstringFilter.default : LdapSubstringFilter := ⟨none, [], none⟩

inductive LdapFilter where
  | and (fs : List LdapFilter)
  | or (fs : List LdapFilter)
  | not (f : LdapFilter)
  | equality (attr : RStr) (value : RStr)
  | substring (attr : RStr) (f : LdapSubstringFilter)
  | present (attr : RStr)
  deriving Repr

namespace LdapFilter

mutual

def beqF : LdapFilter → LdapFilter → Bool
  | .and fs, .and fs' => beqFList fs fs'
  | .or fs, .or fs' => beqFList fs fs'
  | .not f, .not f' => beqF f f'
  | .equality a v, .equality a' v' => a == a' && v == v'
  | .substring a f, .substring a' f' => a == a' && f == f'
  | .present a, .present a' => a == a'
  | _, _ => false

def beqFList : List LdapFilter → List LdapFilter → Bool
  | [], [] => true
  | f :: fs, f' :: fs' => beqF f f' && beqFList fs fs'
  | _, _ => false

end

mutual

theorem beqF_refl : ∀ f : LdapFilter, beqF f f = true
  | .and fs => by simp [beqF, beqFList_refl fs]
  | .or fs => by simp [beqF, beqFList_refl fs]
  | .not f => by simp [beqF, beqF_refl f]
  | .equality a v => by simp [beqF]
  | .substring a f => by simp [beqF]
  | .present a => by simp [beqF]

theorem beqFList_refl : ∀ fs : List LdapFilter, beqFList fs fs = true
  | [] => by simp [beqFList]
  | f :: fs => by simp [beqFList, beqF_refl f, beqFList_refl fs]

end

mutual

theorem eqF_of_beqF : ∀ f f' : LdapFilter, beqF f f' = true → f = f'
  | .and fs, .and fs' => by
      simp only [beqF]
      intro h
      rw [eqFList_of_beqFList fs fs' h]
  | .or fs, .or fs' => by
      simp only [beqF]
      intro h
      rw [eqFList_of_beqFList fs fs' h]
  | .not f, .not f' => by
      simp only [beqF]
      intro h
      rw [eqF_of_beqF f f' h]
  | .equality a v, .equality a' v' => by
      simp only [beqF, Bool.and_eq_true, beq_iff_eq]
      rintro ⟨rfl, rfl⟩; rfl
  | .substring a f, .substring a' f' => by
      simp only [beqF, Bool.and_eq_true, beq_iff_eq]
      rintro ⟨rfl, rfl⟩; rfl
  | .present a, .present a' => by
      simp only [beqF, beq_iff_eq]
      rintro rfl; rfl
  | .and _, .or _ | .and _, .not _ | .and _, .equality _ _
  | .and _, .substring _ _ | .and _, .present _
  | .or _, .and _ | .or _, .not _ | .or _, .equality _ _
  | .or _, .substring _ _ | .or _, .present _
  | .not _, .and _ | .not _, .or _ | .not _, .equality _ _
  | .not _, .substring _ _ | .not _, .present _
  | .equality _ _, .and _ | .equality _ _, .or _
  | .equality _ _, .not _ | .equality _ _, .substring _ _
  | .equality _ _, .present _
  | .substring _ _, .and _ | .substring _ _, .or _
  | .substring _ _, .not _ | .substring _ _, .equality _ _
  | .substring _ _, .present _
  | .present _, .and _ | .present _, .or _ | .present _, .not _
  | .present _, .equality _ _ | .present _, .substring _ _ =>
      by simp [beqF]

theorem eqFList_of_beqFList : ∀ fs fs' : List LdapFilter,
    beqFList fs fs' = true → fs = fs'
  | [], [] => by simp
  | [], _ :: _ => by simp [beqFList]
  | _ :: _, [] => by simp [beqFList]
  | f :: fs, f' :: fs' => by
      simp only [beqFList, Bool.and_eq_true]
      rintro ⟨h1, h2⟩
      rw [eqF_of_beqF f f' h1, eqFList_of_beqFList fs fs' h2]

end

instance : DecidableEq LdapFilter := fun f f' =>
  decidable_of_iff (beqF f f' = true)
    ⟨eqF_of_beqF f f', fun h => h ▸ beqF_refl f⟩

end LdapFilter

structure LdapSearchRequest where
  base : RStr
  scope : LdapSearchScope
  aliases : LdapDerefAliases
  sizelimit : Int
  timelimit : Int
  typesonly : Bool
  filter : LdapFilter
  attrs : List RStr
  deriving DecidableEq, Repr

structure LdapPartialAttribute where
  atype : RStr
  vals : List (List Nat)
  deriving DecidableEq, Repr

/-- `pub type LdapAttribute = LdapPartialAttribute;` -/
abbrev LdapAttribute := LdapPartialAttribute

structure LdapSearchResultEntry where
  dn : RStr
  attributes : List LdapPartialAttribute
  deriving DecidableEq, Repr

structure LdapAddRequest where
  dn : RStr
  attributes : List LdapAttribute
  deriving DecidableEq, Repr

inductive LdapModifyType where
  | add
  | delete
  | replace
  deriving DecidableEq, Repr

def LdapModifyType.toI64 : LdapModifyType → Int
  | .add => 0
  | .delete => 1
  | .replace => 2

/-- Model of `TryFrom<i64> for LdapModifyType`. -/
def LdapModifyType.try_from (value : Int) : Option LdapModifyType :=
  if value = 0 then some .add
  else if value = 1 then some .delete
  else if value = 2 then some .replace
  else none

structure LdapModify where
  operation : LdapModifyType
  modification : LdapPartialAttribute
  deriving DecidableEq, Repr

structure LdapModifyRequest where
  dn : RStr
  changes : List LdapModify
  deriving DecidableEq, Repr

structure LdapExtendedRequest where
  name : RStr
  value : Option (List Nat)
  deriving DecidableEq, Repr

structure LdapExtendedResponse where
  res : LdapResult
  name : Option RStr
  value : Option (List Nat)
  deriving DecidableEq, Repr

inductive LdapIntermediateResponse where
  | syncInfoNewCookie (cookie : List Nat)
  | syncInfoRefreshDelete (cookie : Option (List Nat)) (done : Bool)
  | syncInfoRefreshPresent (cookie : Option (List Nat)) (done : Bool)
  | syncInfoIdSet (cookie : Option (List Nat)) (refresh_deletes : Bool)
      (syncuuids : List (List Nat))
  | raw (name : Option RStr) (value : Option (List Nat))
  deriving DecidableEq, Repr

inductive LdapOp where
  | bindRequest (r : LdapBindRequest)
  | bindResponse (r : LdapBindResponse)
  | unbindRequest
  | searchRequest (r : LdapSearchRequest)
  | searchResultEntry (r : LdapSearchResultEntry)
  | searchResultDone (r : LdapResult)
  | modifyRequest (r : LdapModifyRequest)
  | modifyResponse (r : LdapResult)
  | addRequest (r : LdapAddRequest)
  | addResponse (r : LdapResult)
  | delRequest (dn : RStr)
  | delResponse (r : LdapResult)
  | abandonRequest (msgid : Int)
  | extendedRequest (r : LdapExtendedRequest)
  | extendedResponse (r : LdapExtendedResponse)
  | intermediateResponse (r : LdapIntermediateResponse)
  deriving DecidableEq, Repr

structure LdapMsg where
  msgid : Int
  op : LdapOp
  ctrl : List LdapControl
  deriving DecidableEq, Repr

structure LdapPasswordModifyRequest where
  user_identity : Option RStr
  old_password : Option RStr
  new_password : Option RStr
  deriving DecidableEq, Repr

/-! ## Decoders (the `TryFrom` impls of `proto.rs`)

The Rust decoders `reverse()` a tag vector and read it with `pop()`; the
model reads the same elements positionally with `l[i]?`.  Where a decoder
keeps the un-popped remainder, the model keeps the corresponding reversed
suffix. -/

/-- ASCII bytes of a string literal. -/
def strBytes (s : String) : List Nat := s.data.map Char.toNat

/-- `collect::<Option<Vec<_>>>` / `collect::<Result<Vec<_>, _>>` over
decoded elements: all must succeed. -/
def collectTags {α : Type} (f : StructureTag → Option α) :
    List StructureTag → Option (List α)
  | [] => some []
  | t :: ts => do
      let a ← f t
      let as ← collectTags f ts
      some (a :: as)

/-- A fallible fold over tags (a loop whose body may `return Err`). -/
def foldTags {σ : Type} (f : σ → StructureTag → Option σ) :
    σ → List StructureTag → Option σ
  | acc, [] => some acc
  | acc, t :: ts => (f acc t).bind (fun acc' => foldTags f acc' ts)

/-- Model of `TryFrom<StructureTag> for LdapBindCred`. -/
def LdapBindCred.try_from (value : StructureTag) : Option LdapBindCred :=
  if value.cls ≠ TagClass.context then none
  else if value.id = 0 then
    (value.expect_primitive.bind string_from_utf8).map LdapBindCred.simple
  else none

/-- Model of `TryFrom<Vec<StructureTag>> for LdapBindRequest`: the version
integer must be 3, then DN and credential follow. -/
def LdapBindRequest.try_from (value : List StructureTag) :
    Option LdapBindRequest := do
  let v ← value[0]?.bind (StructureTag.match_class .universal)
    |>.bind (StructureTag.match_id Types.Integer)
    |>.bind StructureTag.expect_primitive
    |>.bind ber_integer_to_i64
  if v ≠ 3 then none
  else do
    let dn ← value[1]?.bind (StructureTag.match_class .universal)
      |>.bind (StructureTag.match_id Types.OctetString)
      |>.bind StructureTag.expect_primitive
      |>.bind string_from_utf8
    let cred ← value[2]?.bind (fun t => LdapBindCred.try_from t)
    some ⟨dn, cred⟩

/-- Model of `LdapResult::try_from_tag`: decode `code`, `matcheddn`,
`message`; referral elements (id 3) are dropped and the referral list is
returned empty; the remaining (non-id-3) tags are handed back. -/
def LdapResult.try_from_tag (value : List StructureTag) :
    Option (LdapResult × List StructureTag) := do
  let code ← (value[0]?.bind (StructureTag.match_class .universal)
    |>.bind (StructureTag.match_id Types.Enumerated)
    |>.bind StructureTag.expect_primitive
    |>.bind ber_integer_to_i64).bind LdapResultCode.try_from
  let matcheddn ← value[1]?.bind (StructureTag.match_class .universal)
    |>.bind (StructureTag.match_id Types.OctetString)
    |>.bind StructureTag.expect_primitive
    |>.bind string_from_utf8
  let message ← value[2]?.bind (StructureTag.match_class .universal)
    |>.bind (StructureTag.match_id Types.OctetString)
    |>.bind StructureTag.expect_primitive
    |>.bind string_from_utf8
  let other := ((value.drop 3).reverse).filter (fun v => ¬ v.id = 3)
  let referral : List RStr := []
  some (⟨code, matcheddn, message, referral⟩, other)

/-- Model of `TryFrom<Vec<StructureTag>> for LdapBindResponse` (the
`saslcreds` are never decoded). -/
def LdapBindResponse.try_from (value : List StructureTag) :
    Option LdapBindResponse := do
  let (res, _remtag) ← LdapResult.try_from_tag value
  some ⟨res, none⟩

/-- The substring-parts loop of the substring-filter decode: an id-0
(`initial`) part is accepted only at index 0, an id-2 (`final`) part only at
the last index, id-1 (`any`) parts anywhere; anything else fails. -/
def substringPartsLoop (len : Nat) :
    Nat → List StructureTag → LdapSubstringFilter →
      Option LdapSubstringFilter
  | _, [], f => some f
  | i, .prim _ 0 s :: rest, f =>
      if i = 0 then
        (string_from_utf8 s).bind fun s' =>
          substringPartsLoop len (i + 1) rest { f with initial := some s' }
      else none
  | i, .prim _ 1 s :: rest, f =>
      (string_from_utf8 s).bind fun s' =>
        substringPartsLoop len (i + 1) rest { f with any := f.any ++ [s'] }
  | i, .prim _ 2 s :: rest, f =>
      if i = len - 1 then
        (string_from_utf8 s).bind fun s' =>
          substringPartsLoop len (i + 1) rest { f with final_ := some s' }
      else none
  | _, _ :: _, _ => none

/-- The substring-parts closure of the id-4 filter case. -/
def substringPartsDecode (bv : List StructureTag) :
    Option LdapSubstringFilter :=
  substringPartsLoop bv.length 0 bv LdapSubstringFilter.default

mutual

/-- Model of `TryFrom<StructureTag> for LdapFilter`. -/
def LdapFilter.try_from (strict : Bool) :
    StructureTag → Option LdapFilter
  | .prim c i bs =>
      if c = TagClass.context ∧ i = 7 then
        (string_from_utf8 bs).map LdapFilter.present
      else none
  | .cons c i inner =>
      if c ≠ TagClass.context then none
      else if i = 0 then
        (LdapFilter.tryFromList strict inner).map LdapFilter.and
      else if i = 1 then
        (LdapFilter.tryFromList strict inner).map LdapFilter.or
      else if i = 2 then
        match _hl : inner.getLast? with
        | none => none
        | some t => (LdapFilter.try_from strict t).map LdapFilter.not
      else if i = 3 then
        (do
          let a ← value0 inner
          let v ← inner[1]?.bind (StructureTag.match_class .universal)
            |>.bind (fun t =>
              if strict then t.match_id Types.OctetString else some t)
            |>.bind StructureTag.expect_primitive
            |>.bind string_from_utf8
          some (LdapFilter.equality a v))
      else if i = 4 then
        (do
          let ty ← value0 inner
          let f ← inner[1]?.bind (StructureTag.match_class .universal)
            |>.bind (StructureTag.match_id Types.Sequence)
            |>.bind StructureTag.expect_constructed
            |>.bind substringPartsDecode
          some (LdapFilter.substring ty f))
      else none
  termination_by t => sizeOf t
  decreasing_by
    all_goals simp_wf
    all_goals
      try (have hm := List.sizeOf_lt_of_mem (List.mem_of_mem_getLast? _hl)
           omega)

/-- Shared head decode: first element as a universal octet string holding
UTF-8 text. -/
def value0 (inner : List StructureTag) : Option RStr :=
  inner[0]?.bind (StructureTag.match_class .universal)
    |>.bind (StructureTag.match_id Types.OctetString)
    |>.bind StructureTag.expect_primitive
    |>.bind string_from_utf8

/-- Sequential decode of a filter list (`collect::<Result<Vec<_>, _>>`). -/
def LdapFilter.tryFromList (strict : Bool) :
    List StructureTag → Option (List LdapFilter)
  | [] => some []
  | t :: ts => do
      let f ← LdapFilter.try_from strict t
      let fs ← LdapFilter.tryFromList strict ts
      some (f :: fs)
  termination_by ts => sizeOf ts
  decreasing_by
    all_goals simp_wf
    all_goals omega

end

/-- Model of `TryFrom<Vec<StructureTag>> for LdapSearchRequest`.  In the
default (non-strict) build the attrs element is checked for universal class
but its contents are replaced by an empty list. -/
def LdapSearchRequest.try_from (strict : Bool) (value : List StructureTag) :
    Option LdapSearchRequest := do
  let base ← value[0]?.bind (StructureTag.match_class .universal)
    |>.bind (StructureTag.match_id Types.OctetString)
    |>.bind StructureTag.expect_primitive
    |>.bind string_from_utf8
  let scope ← (value[1]?.bind (StructureTag.match_class .universal)
    |>.bind (fun t =>
      if strict then t.match_id Types.Enumerated else some t)
    |>.bind StructureTag.expect_primitive
    |>.bind ber_integer_to_i64).bind LdapSearchScope.try_from
  let aliases ← (value[2]?.bind (StructureTag.match_class .universal)
    |>.bind (StructureTag.match_id Types.Enumerated)
    |>.bind StructureTag.expect_primitive
    |>.bind ber_integer_to_i64).bind LdapDerefAliases.try_from
  let sizelimit ← (value[3]?.bind (StructureTag.match_class .universal)
    |>.bind (StructureTag.match_id Types.Integer)
    |>.bind StructureTag.expect_primitive
    |>.bind ber_integer_to_i64).map i64_as_i32
  let timelimit ← (value[4]?.bind (StructureTag.match_class .universal)
    |>.bind (StructureTag.match_id Types.Integer)
    |>.bind StructureTag.expect_primitive
    |>.bind ber_integer_to_i64).map i64_as_i32
  let typesonly ← value[5]?.bind (StructureTag.match_class .universal)
    |>.bind (StructureTag.match_id Types.Boolean)
    |>.bind StructureTag.expect_primitive
    |>.bind ber_bool_to_bool
  let filter ← value[6]?.bind (fun t => LdapFilter.try_from strict t)
  let attrs ← value[7]?.bind (StructureTag.match_class .universal)
    |>.bind (fun t =>
      if strict then t.match_id Types.Sequence else some t)
    |>.bind (fun t =>
      if strict then t.expect_constructed else some [])
    |>.bind (collectTags (fun bv =>
      (bv.match_class .universal)
        |>.bind (StructureTag.match_id Types.OctetString)
        |>.bind StructureTag.expect_primitive
        |>.bind string_from_utf8))
  some ⟨base, scope, aliases, sizelimit, timelimit, typesonly, filter, attrs⟩

/-- Model of `TryFrom<StructureTag> for LdapPartialAttribute`. -/
def LdapPartialAttribute.try_from (value : StructureTag) :
    Option LdapPartialAttribute := do
  let inner ← (value.match_class .universal)
    |>.bind (StructureTag.match_id Types.Sequence)
    |>.bind StructureTag.expect_constructed
  let atype ← inner[0]?.bind (StructureTag.match_class .universal)
    |>.bind (StructureTag.match_id Types.OctetString)
    |>.bind StructureTag.expect_primitive
    |>.bind string_from_utf8
  let vals ← inner[1]?.bind (StructureTag.match_class .universal)
    |>.bind (StructureTag.match_id Types.SetOf)
    |>.bind StructureTag.expect_constructed
    |>.bind (collectTags (fun bv =>
      (bv.match_class .universal)
        |>.bind (StructureTag.match_id Types.OctetString)
        |>.bind StructureTag.expect_primitive))
  some ⟨atype, vals⟩

/-- Model of `TryFrom<StructureTag> for LdapModify`. -/
def LdapModify.try_from (value : StructureTag) : Option LdapModify := do
  let inner ← (value.match_class .universal)
    |>.bind (StructureTag.match_id Types.Sequence)
    |>.bind StructureTag.expect_constructed
  let operation ← (inner[0]?.bind (StructureTag.match_class .universal)
    |>.bind (StructureTag.match_id Types.Enumerated)
    |>.bind StructureTag.expect_primitive
    |>.bind ber_integer_to_i64).bind LdapModifyType.try_from
  let modification ← inner[1]?.bind (fun t => LdapPartialAttribute.try_from t)
  some ⟨operation, modification⟩

/-- Model of `TryFrom<Vec<StructureTag>> for LdapSearchResultEntry`. -/
def LdapSearchResultEntry.try_from (value : List StructureTag) :
    Option LdapSearchResultEntry := do
  let dn ← value[0]?.bind (StructureTag.match_class .universal)
    |>.bind (StructureTag.match_id Types.OctetString)
    |>.bind StructureTag.expect_primitive
    |>.bind string_from_utf8
  let attributes ← value[1]?.bind (StructureTag.match_class .universal)
    |>.bind (StructureTag.match_id Types.Sequence)
    |>.bind StructureTag.expect_constructed
    |>.bind (collectTags LdapPartialAttribute.try_from)
  some ⟨dn, attributes⟩

/-- Model of `TryFrom<Vec<StructureTag>> for LdapModifyRequest`. -/
def LdapModifyRequest.try_from (value : List StructureTag) :
    Option LdapModifyRequest := do
  let dn ← value[0]?.bind (StructureTag.match_class .universal)
    |>.bind (StructureTag.match_id Types.OctetString)
    |>.bind StructureTag.expect_primitive
    |>.bind string_from_utf8
  let changes ← value[1]?.bind (StructureTag.match_class .universal)
    |>.bind (StructureTag.match_id Types.Sequence)
    |>.bind StructureTag.expect_constructed
    |>.bind (collectTags LdapModify.try_from)
  some ⟨dn, changes⟩

/-- Model of `TryFrom<Vec<StructureTag>> for LdapAddRequest`. -/
def LdapAddRequest.try_from (value : List StructureTag) :
    Option LdapAddRequest := do
  let dn ← value[0]?.bind (StructureTag.match_class .universal)
    |>.bind (StructureTag.match_id Types.OctetString)
    |>.bind StructureTag.expect_primitive
    |>.bind string_from_utf8
  let attributes ← value[1]?.bind (StructureTag.match_class .universal)
    |>.bind (StructureTag.match_id Types.Sequence)
    |>.bind StructureTag.expect_constructed
    |>.bind (collectTags LdapPartialAttribute.try_from)
  some ⟨dn, attributes⟩

/-- Model of `TryFrom<Vec<StructureTag>> for LdapExtendedRequest`. -/
def LdapExtendedRequest.try_from (value : List StructureTag) :
    Option LdapExtendedRequest := do
  let name ← value[0]?.bind (StructureTag.match_class .context)
    |>.bind (StructureTag.match_id 0)
    |>.bind StructureTag.expect_primitive
    |>.bind string_from_utf8
  let v := value[1]?.bind (StructureTag.match_class .context)
    |>.bind (StructureTag.match_id 1)
    |>.bind StructureTag.expect_primitive
  some ⟨name, v⟩

/-- Model of `TryFrom<Vec<StructureTag>> for LdapExtendedResponse`: decode
the result, then scan the remaining tags for context-id-10 (name) and
context-id-11 (value) elements. -/
def LdapExtendedResponse.try_from (value : List StructureTag) :
    Option LdapExtendedResponse := do
  let (res, remtag) ← LdapResult.try_from_tag value
  let st := remtag.foldl
    (fun (acc : Option RStr × Option (List Nat)) v =>
      if v.id = 10 ∧ v.cls = TagClass.context then
        (v.expect_primitive.bind string_from_utf8, acc.2)
      else if v.id = 11 ∧ v.cls = TagClass.context then
        (acc.1, v.expect_primitive)
      else acc)
    (none, none)
  some ⟨res, st.1, st.2⟩

/-- The RFC 4533 sync-info OID. -/
def syncInfoOid : RStr := strBytes "1.3.6.1.4.1.4203.1.9.1.4"

/-- Model of `TryFrom<Vec<StructureTag>> for LdapIntermediateResponse`. -/
def LdapIntermediateResponse.try_from (tags : List StructureTag) :
    Option LdapIntermediateResponse :=
  let st := tags.foldl
    (fun (acc : Option RStr × Option (List Nat)) v =>
      if v.id = 0 ∧ v.cls = TagClass.context then
        (v.expect_primitive.bind string_from_utf8, acc.2)
      else if v.id = 1 ∧ v.cls = TagClass.context then
        (acc.1, v.expect_primitive)
      else acc)
    (none, none)
  match st with
  | (some n, some buf) =>
      if n = syncInfoOid then do
        let (msg, _) ← parseBerFull buf
        if msg.cls ≠ TagClass.context then none
        else do
          let inner ← msg.expect_constructed
          if msg.id = 0 then do
            let cookie ← inner.getLast?.bind StructureTag.expect_primitive
            some (.syncInfoNewCookie cookie)
          else if msg.id = 1 then do
            let st ← foldTags
              (fun (acc : Bool × Option (List Nat)) t =>
                match t.match_class .universal with
                | none => some acc
                | some t =>
                    if t.id = Types.Boolean then
                      (t.expect_primitive.bind ber_bool_to_bool).map
                        (fun d => (d, acc.2))
                    else if t.id = Types.OctetString then
                      some (acc.1, t.expect_primitive)
                    else some acc)
              (true, none) inner
            some (.syncInfoRefreshDelete st.2 st.1)
          else if msg.id = 2 then do
            let rev := inner.reverse
            let done := (rev[0]?.bind (StructureTag.match_class .universal)
              |>.bind (StructureTag.match_id Types.Boolean)
              |>.bind StructureTag.expect_primitive
              |>.bind ber_bool_to_bool).getD true
            let cookie := rev[1]?.bind StructureTag.expect_primitive
            some (.syncInfoRefreshPresent cookie done)
          else if msg.id = 3 then do
            let rev := inner.reverse
            let syncuuids ← rev[0]?.bind (StructureTag.match_class .universal)
              |>.bind (StructureTag.match_id Types.SetOf)
              |>.bind StructureTag.expect_constructed
              |>.bind (collectTags (fun bv =>
                (bv.match_class .universal)
                  |>.bind (StructureTag.match_id Types.OctetString)
                  |>.bind StructureTag.expect_primitive
                  |>.bind uuid_from_slice))
            let refresh_deletes :=
              (rev[1]?.bind (StructureTag.match_class .universal)
                |>.bind (StructureTag.match_id Types.Boolean)
                |>.bind StructureTag.expect_primitive
                |>.bind ber_bool_to_bool).getD false
            let cookie := rev[2]?.bind StructureTag.expect_primitive
            some (.syncInfoIdSet cookie refresh_deletes syncuuids)
          else none
      else some (.raw (some n) (some buf))
  | (name, value) => some (.raw name value)

/-- Model of `TryFrom<StructureTag> for LdapControl`: the control SEQUENCE
is split into oid / criticality / value, the value envelope is re-parsed as
BER and routed by OID. -/
def LdapControl.try_from (value : StructureTag) : Option LdapControl := do
  let seq ← (value.match_id Types.Sequence).bind
    StructureTag.expect_constructed
  let (oidTag, criticalityTag, valueTag) ←
    match seq with
    | [o] => some (some o, (none : Option StructureTag),
        (none : Option StructureTag))
    | [o, v] => some (some o, none, some v)
    | [o, c, v] => some (some o, some c, some v)
    | _ => none
  let oid ← oidTag.bind (StructureTag.match_class .universal)
    |>.bind (StructureTag.match_id Types.OctetString)
    |>.bind StructureTag.expect_primitive
    |>.bind string_from_utf8
  if oid = strBytes "1.3.6.1.4.1.4203.1.9.1.1" then do
    let criticality := (criticalityTag.bind
        (StructureTag.match_class .universal)
      |>.bind (StructureTag.match_id Types.Boolean)
      |>.bind StructureTag.expect_primitive
      |>.bind ber_bool_to_bool).getD false
    let value_ber ← valueTag.bind (StructureTag.match_class .universal)
      |>.bind (StructureTag.match_id Types.OctetString)
      |>.bind StructureTag.expect_primitive
    let (v, _) ← parseBerFull value_ber
    let vinner ← v.expect_constructed
    let mode ← (vinner[0]?.bind (StructureTag.match_class .universal)
      |>.bind (StructureTag.match_id Types.Enumerated)
      |>.bind StructureTag.expect_primitive
      |>.bind ber_integer_to_i64).bind (fun v =>
        if v = 1 then some SyncRequestMode.refreshOnly
        else if v = 3 then some SyncRequestMode.refreshAndPersist
        else none)
    let cookie := vinner[1]?.bind (StructureTag.match_class .universal)
      |>.bind (StructureTag.match_id Types.OctetString)
      |>.bind StructureTag.expect_primitive
    let reload_hint := (vinner[2]?.bind
        (StructureTag.match_class .universal)
      |>.bind (StructureTag.match_id Types.Boolean)
      |>.bind StructureTag.expect_primitive
      |>.bind ber_bool_to_bool).getD false
    some (.syncRequest criticality mode cookie reload_hint)
  else if oid = strBytes "1.3.6.1.4.1.4203.1.9.1.2" then do
    let value_ber ← valueTag.bind (StructureTag.match_class .universal)
      |>.bind (StructureTag.match_id Types.OctetString)
      |>.bind StructureTag.expect_primitive
    let (v, _) ← parseBerFull value_ber
    let vinner ← v.expect_constructed
    let state ← (vinner[0]?.bind (StructureTag.match_class .universal)
      |>.bind (StructureTag.match_id Types.Enumerated)
      |>.bind StructureTag.expect_primitive
      |>.bind ber_integer_to_i64).bind (fun v =>
        if v = 0 then some SyncStateValue.present
        else if v = 1 then some SyncStateValue.add
        else if v = 2 then some SyncStateValue.modify
        else if v = 3 then some SyncStateValue.delete
        else none)
    let entry_uuid ← (vinner[1]?.bind (StructureTag.match_class .universal)
      |>.bind (StructureTag.match_id Types.OctetString)
      |>.bind StructureTag.expect_primitive).bind uuid_from_slice
    let cookie := vinner[2]?.bind (StructureTag.match_class .universal)
      |>.bind (StructureTag.match_id Types.OctetString)
      |>.bind StructureTag.expect_primitive
    some (.syncState state entry_uuid cookie)
  else if oid = strBytes "1.3.6.1.4.1.4203.1.9.1.3" then do
    let value_ber ← valueTag.bind (StructureTag.match_class .universal)
      |>.bind (StructureTag.match_id Types.OctetString)
      |>.bind StructureTag.expect_primitive
    let (v, _) ← parseBerFull value_ber
    let vinner ← v.expect_constructed
    let cookie := vinner[0]?.bind (StructureTag.match_class .universal)
      |>.bind (StructureTag.match_id Types.OctetString)
      |>.bind StructureTag.expect_primitive
    let refresh_deletes := (vinner[1]?.bind
        (StructureTag.match_class .universal)
      |>.bind (StructureTag.match_id Types.Boolean)
      |>.bind StructureTag.expect_primitive
      |>.bind ber_bool_to_bool).getD false
    some (.syncDone cookie refresh_deletes)
  else if oid = strBytes "1.2.840.113556.1.4.841" then do
    let value_ber ← valueTag.bind (StructureTag.match_class .universal)
      |>.bind (StructureTag.match_id Types.OctetString)
      |>.bind StructureTag.expect_primitive
    let (v, _) ← parseBerFull value_ber
    let vinner ← v.expect_constructed
    let flags ← vinner[0]?.bind (StructureTag.match_class .universal)
      |>.bind (StructureTag.match_id Types.Integer)
      |>.bind StructureTag.expect_primitive
      |>.bind ber_integer_to_i64
    let max_bytes ← vinner[1]?.bind (StructureTag.match_class .universal)
      |>.bind (StructureTag.match_id Types.Integer)
      |>.bind StructureTag.expect_primitive
      |>.bind ber_integer_to_i64
    let cookie := vinner[2]?.bind (StructureTag.match_class .universal)
      |>.bind (StructureTag.match_id Types.OctetString)
      |>.bind StructureTag.expect_primitive
    some (.adDirsync flags max_bytes cookie)
  else none

/-- Model of `TryFrom<StructureTag> for LdapOp`: the operation tag must be
application class; dispatch on (id, payload shape). -/
def LdapOp.try_from (strict : Bool) (value : StructureTag) : Option LdapOp :=
  if value.cls ≠ TagClass.application then none
  else
    match value with
    | .cons _ 0 inner => (LdapBindRequest.try_from inner).map .bindRequest
    | .cons _ 1 inner => (LdapBindResponse.try_from inner).map .bindResponse
    | .prim _ 2 _ => some .unbindRequest
    | .cons _ 2 _ => some .unbindRequest
    | .cons _ 3 inner =>
        (LdapSearchRequest.try_from strict inner).map .searchRequest
    | .cons _ 4 inner =>
        (LdapSearchResultEntry.try_from inner).map .searchResultEntry
    | .cons _ 5 inner =>
        (LdapResult.try_from_tag inner).map (fun p => .searchResultDone p.1)
    | .cons _ 6 inner =>
        (LdapModifyRequest.try_from inner).map .modifyRequest
    | .cons _ 7 inner =>
        (LdapResult.try_from_tag inner).map (fun p => .modifyResponse p.1)
    | .cons _ 8 inner => (LdapAddRequest.try_from inner).map .addRequest
    | .cons _ 9 inner =>
        (LdapResult.try_from_tag inner).map (fun p => .addResponse p.1)
    | .prim _ 10 inner => (string_from_utf8 inner).map .delRequest
    | .cons _ 11 inner =>
        (LdapResult.try_from_tag inner).map (fun p => .delResponse p.1)
    | .prim _ 16 inner =>
        (ber_integer_to_i64 inner).map (fun s => .abandonRequest (i64_as_i32 s))
    | .cons _ 23 inner =>
        (LdapExtendedRequest.try_from inner).map .extendedRequest
    | .cons _ 24 inner =>
        (LdapExtendedResponse.try_from inner).map .extendedResponse
    | .cons _ 25 inner =>
        (LdapIntermediateResponse.try_from inner).map .intermediateResponse
    | _ => none

/-- Model of `TryFrom<StructureTag> for LdapMsg`: outer SEQUENCE of two or
three children; per-control decode failures are silently filtered out. -/
def LdapMsg.try_from (strict : Bool) (value : StructureTag) :
    Option LdapMsg := do
  let seq ← (value.match_id Types.Sequence).bind
    StructureTag.expect_constructed
  let (msgidTag, opTag, ctrlTag) ←
    match seq with
    | [m, o] => some (some m, some o, (none : Option StructureTag))
    | [m, o, c] => some (some m, some o, some c)
    | _ => none
  let msgid ← (msgidTag.bind (StructureTag.match_class .universal)
    |>.bind (StructureTag.match_id Types.Integer)
    |>.bind StructureTag.expect_primitive
    |>.bind ber_integer_to_i64).map i64_as_i32
  let op ← opTag
  let op ← LdapOp.try_from strict op
  let ctrl := ((ctrlTag.bind (StructureTag.match_class .context)
    |>.bind (StructureTag.match_id 0)
    |>.bind StructureTag.expect_constructed).map
      (fun inner => inner.filterMap (fun t => LdapControl.try_from t))).getD []
  some ⟨msgid, op, ctrl⟩

/-- Model of the success path of `Decoder::decode for LdapCodec`
(`lib.rs`): parse one whole BER element from the buffer head, consume its
bytes, convert the tag tree to a message. -/
def codecDecode (strict : Bool) (buf : List Nat) : Option (LdapMsg × Nat) :=
  match parseBerFull buf with
  | none => none
  | some (msg, rest) =>
      (LdapMsg.try_from strict msg).map
        (fun m => (m, buf.length - rest.length))

/-! ## Encoders (the `From` impls of `proto.rs`)

Fields written with `..Default::default()` carry the universal class and
the type's standard tag number. -/

/-- Model of `From<LdapBindCred> for Tag`. -/
def LdapBindCred.toTag : LdapBindCred → Tag
  | .simple pw => .octetString .context 0 pw

/-- Model of `From<LdapBindRequest> for Vec<Tag>`: version 3, DN, cred. -/
def LdapBindRequest.toTags (value : LdapBindRequest) : List Tag :=
  [ .integer .universal Types.Integer 3,
    .octetString .universal Types.OctetString value.dn,
    value.cred.toTag ]

/-- Model of `LdapResult::into_tag_iter` (flattened): code, matchedDN,
message, and a context-id-3 referral SEQUENCE only when non-empty. -/
def LdapResult.intoTags (value : LdapResult) : List Tag :=
  [ .enumerated .universal Types.Enumerated value.code.toI64,
    .octetString .universal Types.OctetString value.matcheddn,
    .octetString .universal Types.OctetString value.message ] ++
  (if value.referral.isEmpty then []
   else [Tag.sequence .context 3
     (value.referral.map (fun s => .octetString .universal Types.OctetString s))])

/-- Model of `From<LdapBindResponse> for Vec<Tag>`. -/
def LdapBindResponse.toTags (value : LdapBindResponse) : List Tag :=
  value.res.intoTags ++
    (match value.saslcreds with
     | some sc => [Tag.octetString .universal Types.OctetString sc]
     | none => [])

mutual

/-- Model of `From<LdapFilter> for Tag`. -/
def LdapFilter.toTag : LdapFilter → Tag
  | .and vf => .set .context 0 (LdapFilter.toTagList vf)
  | .or vf => .set .context 1 (LdapFilter.toTagList vf)
  | .not f => .explicitTag .context 2 f.toTag
  | .equality a v => .sequence .context 3
      [ .octetString .universal Types.OctetString a,
        .octetString .universal Types.OctetString v ]
  | .substring t f => .sequence .context 4
      [ .octetString .universal Types.OctetString t,
        .sequence .universal Types.Sequence
          ((f.initial.toList.map
              (fun s => Tag.octetString .universal 0 s)) ++
            (f.any.map (fun s => Tag.octetString .universal 1 s)) ++
            (f.final_.toList.map
              (fun s => Tag.octetString .universal 2 s))) ]
  | .present a => .octetString .context 7 a

def LdapFilter.toTagList : List LdapFilter → List Tag
  | [] => []
  | f :: fs => f.toTag :: LdapFilter.toTagList fs

end

/-- Model of `From<LdapSearchRequest> for Vec<Tag>`. -/
def LdapSearchRequest.toTags (value : LdapSearchRequest) : List Tag :=
  [ .octetString .universal Types.OctetString value.base,
    .enumerated .universal Types.Enumerated value.scope.toI64,
    .enumerated .universal Types.Enumerated value.aliases.toI64,
    .integer .universal Types.Integer value.sizelimit,
    .integer .universal Types.Integer value.timelimit,
    .boolean .universal Types.Boolean value.typesonly,
    value.filter.toTag,
    .sequence .universal Types.Sequence
      (value.attrs.map (fun v => .octetString .universal Types.OctetString v)) ]

/-- Model of `From<LdapPartialAttribute> for Tag`. -/
def LdapPartialAttribute.toTag (value : LdapPartialAttribute) : Tag :=
  .sequence .universal Types.Sequence
    [ .octetString .universal Types.OctetString value.atype,
      .set .universal Types.SetOf
        (value.vals.map (fun v => .octetString .universal Types.OctetString v)) ]

/-- Model of `From<LdapSearchResultEntry> for Vec<Tag>`. -/
def LdapSearchResultEntry.toTags (value : LdapSearchResultEntry) : List Tag :=
  [ .octetString .universal Types.OctetString value.dn,
    .sequence .universal Types.Sequence
      (value.attributes.map LdapPartialAttribute.toTag) ]

/-- Model of `From<LdapModify> for Tag`. -/
def LdapModify.toTag (value : LdapModify) : Tag :=
  .sequence .universal Types.Sequence
    [ .enumerated .universal Types.Enumerated value.operation.toI64,
      value.modification.toTag ]

/-- Model of `From<LdapModifyRequest> for Vec<Tag>`. -/
def LdapModifyRequest.toTags (value : LdapModifyRequest) : List Tag :=
  [ .octetString .universal Types.OctetString value.dn,
    .sequence .universal Types.Sequence (value.changes.map LdapModify.toTag) ]

/-- Model of `From<LdapAddRequest> for Vec<Tag>`. -/
def LdapAddRequest.toTags (value : LdapAddRequest) : List Tag :=
  [ .octetString .universal Types.OctetString value.dn,
    .sequence .universal Types.Sequence
      (value.attributes.map LdapPartialAttribute.toTag) ]

/-- Model of `From<LdapExtendedRequest> for Vec<Tag>`. -/
def LdapExtendedRequest.toTags (value : LdapExtendedRequest) : List Tag :=
  [Tag.octetString .context 0 value.name] ++
    (match value.value with
     | some v => [Tag.octetString .context 1 v]
     | none => [])

/-- Model of `From<LdapExtendedResponse> for Vec<Tag>`. -/
def LdapExtendedResponse.toTags (value : LdapExtendedResponse) : List Tag :=
  value.res.intoTags ++
    (match value.name with
     | some v => [Tag.octetString .context 10 v]
     | none => []) ++
    (match value.value with
     | some v => [Tag.octetString .context 11 v]
     | none => [])

/-- The nested BER envelope of a sync-info body: the serialised bytes of a
context-tagged SEQUENCE. -/
def syncInfoEnvelope (id : Nat) (inner : List Tag) : List Nat :=
  berEncode (Tag.into_structure (.sequence .context id inner))

/-- Model of `From<LdapIntermediateResponse> for Vec<Tag>`. -/
def LdapIntermediateResponse.toTags (value : LdapIntermediateResponse) :
    List Tag :=
  let (name, value) : Option RStr × Option (List Nat) :=
    match value with
    | .syncInfoNewCookie cookie =>
        (some syncInfoOid,
          some (syncInfoEnvelope 0
            [Tag.octetString .universal Types.OctetString cookie]))
    | .syncInfoRefreshDelete cookie done =>
        (some syncInfoOid,
          some (syncInfoEnvelope 1
            ((cookie.toList.map
                (fun c => Tag.octetString .universal Types.OctetString c)) ++
              (if !done then [Tag.boolean .universal Types.Boolean false]
               else []))))
    | .syncInfoRefreshPresent cookie done =>
        (some syncInfoOid,
          some (syncInfoEnvelope 2
            ((cookie.toList.map
                (fun c => Tag.octetString .universal Types.OctetString c)) ++
              (if !done then [Tag.boolean .universal Types.Boolean false]
               else []))))
    | .syncInfoIdSet cookie refresh_deletes syncuuids =>
        (some syncInfoOid,
          some (syncInfoEnvelope 3
            ((cookie.toList.map
                (fun c => Tag.octetString .universal Types.OctetString c)) ++
              (if refresh_deletes
               then [Tag.boolean .universal Types.Boolean true] else []) ++
              [Tag.set .universal Types.SetOf
                (syncuuids.map (fun u =>
                  Tag.octetString .universal Types.OctetString u))])))
    | .raw name value => (name, value)
  (match name with
   | some v => [Tag.octetString .context 0 v]
   | none => []) ++
  (match value with
   | some v => [Tag.octetString .context 1 v]
   | none => [])

/-- Model of `From<LdapControl> for Tag`: oid octet string, optional
criticality boolean, and the control body serialised into an octet-string
envelope. -/
def LdapControl.toTag (value : LdapControl) : Tag :=
  let (oid, crit, inner_tag) :
      String × Bool × Option Tag :=
    match value with
    | .syncRequest criticality mode cookie reload_hint =>
        ("1.3.6.1.4.1.4203.1.9.1.1", criticality,
          some (.sequence .universal Types.Sequence
            ([Tag.enumerated .universal Types.Enumerated mode.toI64] ++
              (cookie.toList.map
                (fun c => Tag.octetString .universal Types.OctetString c)) ++
              (if reload_hint
               then [Tag.boolean .universal Types.Boolean true] else []))))
    | .syncState state entry_uuid cookie =>
        ("1.3.6.1.4.1.4203.1.9.1.2", false,
          some (.sequence .universal Types.Sequence
            ([Tag.enumerated .universal Types.Enumerated state.toI64,
              Tag.octetString .universal Types.OctetString entry_uuid] ++
              (cookie.toList.map
                (fun c => Tag.octetString .universal Types.OctetString c)))))
    | .syncDone cookie refresh_deletes =>
        ("1.3.6.1.4.1.4203.1.9.1.3", false,
          some (.sequence .universal Types.Sequence
            ((cookie.toList.map
                (fun c => Tag.octetString .universal Types.OctetString c)) ++
              (if refresh_deletes
               then [Tag.boolean .universal Types.Boolean true] else []))))
    | .adDirsync flags max_bytes cookie =>
        ("1.2.840.113556.1.4.841", true,
          some (.sequence .universal Types.Sequence
            [Tag.integer .universal Types.Integer flags,
              Tag.integer .universal Types.Integer max_bytes,
              Tag.octetString .universal Types.OctetString (cookie.getD [])]))
  .sequence .universal Types.Sequence
    ([Tag.octetString .universal Types.OctetString (strBytes oid)] ++
      (if crit then [Tag.boolean .universal Types.Boolean true] else []) ++
      (match inner_tag with
       | some t => [Tag.octetString .universal Types.OctetString
           (berEncode t.into_structure)]
       | none => []))

/-- Model of `From<LdapOp> for Tag`. -/
def LdapOp.toTag : LdapOp → Tag
  | .bindRequest lbr => .sequence .application 0 lbr.toTags
  | .bindResponse lbr => .sequence .application 1 lbr.toTags
  | .unbindRequest => .null .application 2
  | .searchRequest sr => .sequence .application 3 sr.toTags
  | .searchResultEntry sre => .sequence .application 4 sre.toTags
  | .searchResultDone lr => .sequence .application 5 lr.intoTags
  | .modifyRequest mr => .sequence .application 6 mr.toTags
  | .modifyResponse lr => .sequence .application 7 lr.intoTags
  | .addRequest lar => .sequence .application 8 lar.toTags
  | .addResponse lr => .sequence .application 9 lr.intoTags
  | .delRequest s => .octetString .application 10 s
  | .delResponse lr => .sequence .application 11 lr.intoTags
  | .abandonRequest id => .integer .application 16 id
  | .extendedRequest ler => .sequence .application 23 ler.toTags
  | .extendedResponse ler => .sequence .application 24 ler.toTags
  | .intermediateResponse lir => .sequence .application 25 lir.toTags

/-- Model of `From<LdapMsg> for StructureTag`: msgid, op, and a
context-id-0 controls SEQUENCE only when controls are present; then lowered
with `into_structure`. -/
def LdapMsg.toStructureTag (value : LdapMsg) : StructureTag :=
  Tag.into_structure (.sequence .universal Types.Sequence
    ([Tag.integer .universal Types.Integer value.msgid,
      value.op.toTag] ++
      (if value.ctrl.isEmpty then []
       else [Tag.sequence .context 0 (value.ctrl.map LdapControl.toTag)])))

/-- Model of `Encoder::encode for LdapCodec` (`lib.rs`): the BER bytes of
the lowered message. -/
def codecEncode (msg : LdapMsg) : List Nat :=
  berEncode msg.toStructureTag

/-- Model of `From<LdapPasswordModifyRequest> for LdapExtendedRequest`:
the three optional fields become context-tagged octet strings in a nested
SEQUENCE, serialised into the request value. -/
def LdapPasswordModifyRequest.toExtendedRequest
    (value : LdapPasswordModifyRequest) : LdapExtendedRequest :=
  let inner : List Tag :=
    (value.user_identity.toList.map (fun s => Tag.octetString .context 0 s)) ++
    (value.old_password.toList.map (fun s => Tag.octetString .context 1 s)) ++
    (value.new_password.toList.map (fun s => Tag.octetString .context 2 s))
  { name := strBytes "1.3.6.1.4.1.4203.1.11.1",
    value := some (berEncode
      (Tag.into_structure (.sequence .universal Types.Sequence inner))) }

/-- Model of `TryFrom<&LdapExtendedRequest> for LdapPasswordModifyRequest`:
check the OID, re-parse the value envelope, read the context-tagged
fields. -/
def LdapPasswordModifyRequest.try_from (value : LdapExtendedRequest) :
    Option LdapPasswordModifyRequest := do
  if value.name ≠ strBytes "1.3.6.1.4.1.4203.1.11.1" then none
  else do
    let buf ← value.value
    let (msg, _) ← parseBerFull buf
    let seq ← (msg.match_id Types.Sequence).bind
      StructureTag.expect_constructed
    foldTags
      (fun (lpmr : LdapPasswordModifyRequest) t => do
        let s ← t.expect_primitive.bind string_from_utf8
        if t.id = 0 then some { lpmr with user_identity := some s }
        else if t.id = 1 then some { lpmr with old_password := some s }
        else if t.id = 2 then some { lpmr with new_password := some s }
        else none)
      ⟨none, none, none⟩ seq

/-! ## Well-formedness

Conditions under which encode-then-decode restores a value.  `wfStr` is the
invariant every Rust `String` has by construction; the remaining conditions
are genuine restrictions (see the round-trip theorems). -/

/-- The byte sequence of a Rust `String` is valid UTF-8. -/
def wfStr (s : RStr) : Prop := isValidUtf8 s = true

/-- An `i32` field that survives the i64 wire trip: non-negative. -/
def wfI32 (i : Int) : Prop := 0 ≤ i ∧ i < 2 ^ 31

/-- An `i64` field that survives the zero-padding decode: non-negative. -/
def wfI64 (i : Int) : Prop := 0 ≤ i ∧ i < 2 ^ 63

def LdapResult.wf (r : LdapResult) : Prop :=
  wfStr r.matcheddn ∧ wfStr r.message ∧ r.referral = []

def LdapBindCred.wf : LdapBindCred → Prop
  | .simple pw => wfStr pw

def LdapBindRequest.wf (r : LdapBindRequest) : Prop :=
  wfStr r.dn ∧ r.cred.wf

def LdapBindResponse.wf (r : LdapBindResponse) : Prop :=
  r.res.wf ∧ r.saslcreds = none

def LdapSubstringFilter.wf (f : LdapSubstringFilter) : Prop :=
  (∀ s ∈ f.initial, wfStr s) ∧ (∀ s ∈ f.any, wfStr s) ∧
    (∀ s ∈ f.final_, wfStr s)

mutual

def LdapFilter.wf : LdapFilter → Prop
  | .and fs => LdapFilter.wfList fs
  | .or fs => LdapFilter.wfList fs
  | .not f => f.wf
  | .equality a v => wfStr a ∧ wfStr v
  | .substring t f => wfStr t ∧ f.wf
  | .present a => wfStr a

def LdapFilter.wfList : List LdapFilter → Prop
  | [] => True
  | f :: fs => f.wf ∧ LdapFilter.wfList fs

end

def LdapSearchRequest.wf (strict : Bool) (r : LdapSearchRequest) : Prop :=
  wfStr r.base ∧ wfI32 r.sizelimit ∧ wfI32 r.timelimit ∧ r.filter.wf ∧
    (∀ a ∈ r.attrs, wfStr a) ∧ (strict = false → r.attrs = [])

def LdapPartialAttribute.wf (a : LdapPartialAttribute) : Prop :=
  wfStr a.atype

def LdapSearchResultEntry.wf (r : LdapSearchResultEntry) : Prop :=
  wfStr r.dn ∧ ∀ a ∈ r.attributes, a.wf

def LdapAddRequest.wf (r : LdapAddRequest) : Prop :=
  wfStr r.dn ∧ ∀ a ∈ r.attributes, a.wf

def LdapModify.wf (m : LdapModify) : Prop := m.modification.wf

def LdapModifyRequest.wf (r : LdapModifyRequest) : Prop :=
  wfStr r.dn ∧ ∀ c ∈ r.changes, c.wf

def LdapExtendedRequest.wf (r : LdapExtendedRequest) : Prop := wfStr r.name

def LdapExtendedResponse.wf (r : LdapExtendedResponse) : Prop :=
  r.res.wf ∧ ∀ n ∈ r.name, wfStr n

def LdapControl.wf : LdapControl → Prop
  | .syncRequest _ _ cookie reload_hint =>
      reload_hint = true → cookie.isSome
  | .syncState _ entry_uuid _ => entry_uuid.length = 16
  | .syncDone cookie refresh_deletes =>
      refresh_deletes = true → cookie.isSome
  | .adDirsync flags max_bytes cookie =>
      wfI64 flags ∧ wfI64 max_bytes ∧ cookie.isSome

def LdapIntermediateResponse.wf : LdapIntermediateResponse → Prop
  | .syncInfoNewCookie _ => True
  | .syncInfoRefreshDelete _ _ => True
  | .syncInfoRefreshPresent cookie done => cookie.isSome → done = false
  | .syncInfoIdSet cookie refresh_deletes syncuuids =>
      (cookie.isSome → refresh_deletes = true) ∧
        ∀ u ∈ syncuuids, u.length = 16
  | .raw name value =>
      (∀ n ∈ name, wfStr n) ∧ ¬ (name = some syncInfoOid ∧ value.isSome)

def LdapOp.wf (strict : Bool) : LdapOp → Prop
  | .bindRequest r => r.wf
  | .bindResponse r => r.wf
  | .unbindRequest => True
  | .searchRequest r => r.wf strict
  | .searchResultEntry r => r.wf
  | .searchResultDone r => r.wf
  | .modifyRequest r => r.wf
  | .modifyResponse r => r.wf
  | .addRequest r => r.wf
  | .addResponse r => r.wf
  | .delRequest dn => wfStr dn
  | .delResponse r => r.wf
  | .abandonRequest i => wfI32 i
  | .extendedRequest r => r.wf
  | .extendedResponse r => r.wf
  | .intermediateResponse r => r.wf

def LdapMsg.wf (strict : Bool) (m : LdapMsg) : Prop :=
  wfI32 m.msgid ∧ m.op.wf strict ∧ ∀ c ∈ m.ctrl, c.wf

/-! ## A spec-worded restatement of the integer decoder

`ber_integer_to_i64_spec` is written from the specification text alone
("right-align the bytes into an 8-byte buffer zero-padded on the left and
interpret as signed 64-bit big-endian; inputs longer than 8 bytes are an
error"), to be compared with `ber_integer_to_i64` above, which is
translated from the source. -/

def ber_integer_to_i64_spec (bv : List Nat) : Option Int :=
  if bv.length > 8 then none
  else
    let buffer : List Nat := List.replicate (8 - bv.length) 0 ++ bv
    let unsigned : Nat := buffer.foldl (fun acc byte => 2 ^ 8 * acc + byte) 0
    some (if unsigned < 2 ^ 63 then (unsigned : Int)
          else (unsigned : Int) - 2 ^ 64)

/-! ## Debug-formatter models (`proto.rs`, the hand-written `Debug` impls)

The renderings are byte strings.  The single-line output format of
`debug_struct`, `Display for u8` and `char::escape_debug` are modelled from the
spec: they are `std` behaviour, not code of this repository. -/

/-- Decimal rendering of a byte value (modelled from the spec: `Display`
for `u8`). -/
def natDecimal (n : Nat) : List Nat :=
  (Nat.toDigits 10 n).map Char.toNat

/-- One character of `char::escape_debug` (modelled from the spec): quote,
backslash and the common control characters are escaped, other printable
ASCII passes through, the rest becomes a braced unicode escape. -/
def escapeDebugChar (c : Nat) : List Nat :=
  if c = 34 then [92, 34]
  else if c = 92 then [92, 92]
  else if c = 10 then [92, 110]
  else if c = 13 then [92, 114]
  else if c = 9 then [92, 116]
  else if 32 ≤ c ∧ c < 127 then [c]
  else [92, 117, 123] ++ (Nat.toDigits 16 c).map Char.toNat ++ [125]

/-- `Debug` rendering of a `String` (modelled from the spec): quoted,
characters escaped with `escape_debug`. -/
def dbgString (s : RStr) : RStr :=
  [34] ++ s.foldr (fun c acc => escapeDebugChar c ++ acc) [] ++ [34]

/-- Comma-space separated concatenation, the list-element separator of
`Debug` sequences. -/
def commaSep : List RStr → RStr
  | [] => []
  | [x] => x
  | x :: xs => x ++ [44, 32] ++ commaSep xs

/-- `Debug` rendering of a `Vec<u8>` (modelled from the spec). -/
def dbgByteVec (v : List Nat) : RStr :=
  [91] ++ commaSep (v.map natDecimal) ++ [93]

/-- `Debug` rendering of a `Vec<Vec<u8>>` (modelled from the spec). -/
def dbgVecByteVec (vs : List (List Nat)) : RStr :=
  [91] ++ commaSep (vs.map dbgByteVec) ++ [93]

/-- Model of the hand-written `Debug for LdapBindCred` (`proto.rs`): a
fixed placeholder, whatever the password. -/
def LdapBindCred.dbg (_ : LdapBindCred) : RStr :=
  strBytes "Simple(\"********\")"

/-- Model of the hand-written `Debug for LdapPartialAttribute`
(`proto.rs`): the values are replaced by a placeholder only when the
attribute type is `userPassword` and there is exactly one value. -/
def LdapPartialAttribute.dbg (a : LdapPartialAttribute) : RStr :=
  strBytes "LdapPartialAttribute \x7b atype: " ++ dbgString a.atype ++
  strBytes ", vals: " ++
  (if a.atype = strBytes "userPassword" ∧ a.vals.length = 1 then
    strBytes "[\"********\"]"
  else dbgVecByteVec a.vals) ++ strBytes " \x7d"

/-- Model of the hand-written `Debug for LdapExtendedRequest`
(`proto.rs`): a present value is rendered as a fixed placeholder. -/
def LdapExtendedRequest.dbg (r : LdapExtendedRequest) : RStr :=
  strBytes "LdapExtendedRequest \x7b name: " ++ dbgString r.name ++
  strBytes ", value: " ++
  (match r.value with
   | some _ => strBytes "Some(\"vec![...]\")"
   | none => strBytes "None") ++ strBytes " \x7d"

/-- Model of the hand-written `Debug for LdapPasswordModifyRequest`
(`proto.rs`): both password fields are rendered as placeholders; as in the
source, the `new_password` field is rendered from `old_password`. -/
def LdapPasswordModifyRequest.dbg (r : LdapPasswordModifyRequest) : RStr :=
  strBytes "LdapPasswordModifyRequest \x7b user_identity: " ++
  (match r.user_identity with
   | some s => strBytes "Some(" ++ dbgString s ++ strBytes ")"
   | none => strBytes "None") ++
  strBytes ", old_password: " ++
  (match r.old_password with
   | some _ => strBytes "Some(\"********\")"
   | none => strBytes "None") ++
  strBytes ", new_password: " ++
  (match r.old_password with
   | some _ => strBytes "Some(\"********\")"
   | none => strBytes "None") ++ strBytes " \x7d"

/-! ## Component round-trip lemmas -/

theorem ber_int_round (i : Int) (h0 : 0 ≤ i) (h1 : i < 2 ^ 63) :
    ber_integer_to_i64 (berIntEncode i) = some i := by
  have hn : ((i.toNat : Nat) : Int) = i := Int.toNat_of_nonneg h0
  have h2 : i.toNat < 2 ^ 63 := by omega
  calc ber_integer_to_i64 (berIntEncode i)
      = ber_integer_to_i64 (berIntEncode ((i.toNat : Nat) : Int)) := by
        rw [hn]
    _ = some ((i.toNat : Nat) : Int) :=
        ber_integer_to_i64_berIntEncode _ h2
    _ = some i := by rw [hn]

theorem ber_bool_round (b : Bool) :
    ber_bool_to_bool [if b then 255 else 0] = some b := by
  cases b <;> rfl

theorem collectTags_map_some {α : Type} (f : StructureTag → Option α)
    (g : α → StructureTag) :
    ∀ l : List α, (∀ a ∈ l, f (g a) = some a) →
      collectTags f (l.map g) = some l
  | [], _ => rfl
  | a :: l, h => by
      rw [List.map_cons, collectTags, h a (by simp),
        collectTags_map_some f g l (fun x hx => h x (by simp [hx]))]
      rfl

theorem filterMap_map_some {α : Type} (f : StructureTag → Option α)
    (g : α → StructureTag) :
    ∀ l : List α, (∀ a ∈ l, f (g a) = some a) →
      (l.map g).filterMap f = l
  | [], _ => rfl
  | a :: l, h => by
      rw [List.map_cons, List.filterMap_cons, h a (by simp),
        filterMap_map_some f g l (fun x hx => h x (by simp [hx]))]

theorem match_class_prim (c' c : TagClass) (i : Nat) (bs : List Nat) :
    StructureTag.match_class c' (.prim c i bs) =
      if c = c' then some (.prim c i bs) else none := by
  simp [StructureTag.match_class, StructureTag.cls]

theorem match_class_cons (c' c : TagClass) (i : Nat)
    (cs : List StructureTag) :
    StructureTag.match_class c' (.cons c i cs) =
      if c = c' then some (.cons c i cs) else none := by
  simp [StructureTag.match_class, StructureTag.cls]

theorem match_id_prim (i' : Nat) (c : TagClass) (i : Nat) (bs : List Nat) :
    StructureTag.match_id i' (.prim c i bs) =
      if i = i' then some (.prim c i bs) else none := by
  simp [StructureTag.match_id, StructureTag.id]

theorem match_id_cons (i' : Nat) (c : TagClass) (i : Nat)
    (cs : List StructureTag) :
    StructureTag.match_id i' (.cons c i cs) =
      if i = i' then some (.cons c i cs) else none := by
  simp [StructureTag.match_id, StructureTag.id]

theorem expect_primitive_prim (c : TagClass) (i : Nat) (bs : List Nat) :
    StructureTag.expect_primitive (.prim c i bs) = some bs := rfl

theorem expect_primitive_cons (c : TagClass) (i : Nat)
    (cs : List StructureTag) :
    StructureTag.expect_primitive (.cons c i cs) = none := rfl

theorem expect_constructed_prim (c : TagClass) (i : Nat) (bs : List Nat) :
    StructureTag.expect_constructed (.prim c i bs) = none := rfl

theorem expect_constructed_cons (c : TagClass) (i : Nat)
    (cs : List StructureTag) :
    StructureTag.expect_constructed (.cons c i cs) = some cs := rfl

theorem resultCode_toI64_round (c : LdapResultCode) :
    ber_integer_to_i64 (berIntEncode c.toI64) = some c.toI64 :=
  ber_int_round c.toI64 (by cases c <;> decide) (by cases c <;> decide)

theorem resultCode_of_toI64 (c : LdapResultCode) :
    LdapResultCode.try_from c.toI64 = some c := by
  cases c <;> decide

theorem result_round (r : LdapResult) (h : r.wf)
    (extra : List StructureTag) :
    LdapResult.try_from_tag (intoStructureList r.intoTags ++ extra) =
      some (r, extra.reverse.filter (fun v => ¬ v.id = 3)) := by
  obtain ⟨code, matcheddn, message, referral⟩ := r
  obtain ⟨hdn, hmsg, href⟩ := h
  have href' : referral = [] := href
  subst href'
  simp [LdapResult.try_from_tag, LdapResult.intoTags, intoStructureList,
    Tag.into_structure, match_class_prim, match_id_prim,
    expect_primitive_prim, expect_primitive_cons,
    string_from_utf8_valid hdn, string_from_utf8_valid hmsg,
    resultCode_toI64_round, resultCode_of_toI64,
    Types.Enumerated, Types.OctetString]

theorem intoStructureList_eq_map (ts : List Tag) :
    intoStructureList ts = ts.map Tag.into_structure := by
  induction ts with
  | nil => rfl
  | cons t ts ih => rw [intoStructureList, List.map_cons, ih]

theorem bindCred_round (c : LdapBindCred) (h : c.wf) :
    LdapBindCred.try_from (Tag.into_structure c.toTag) = some c := by
  obtain ⟨pw⟩ := c
  simp [LdapBindCred.try_from, LdapBindCred.toTag, Tag.into_structure,
    StructureTag.cls, StructureTag.id, expect_primitive_prim, expect_primitive_cons,
    string_from_utf8_valid h]

theorem bindRequest_round (r : LdapBindRequest) (h : r.wf) :
    LdapBindRequest.try_from (intoStructureList r.toTags) = some r := by
  obtain ⟨dn, cred⟩ := r
  obtain ⟨hdn, hcred⟩ := h
  obtain ⟨pw⟩ := cred
  have hpw : wfStr pw := hcred
  simp [LdapBindRequest.try_from, LdapBindRequest.toTags, intoStructureList,
    Tag.into_structure, match_class_prim, match_id_prim,
    expect_primitive_prim, expect_primitive_cons, LdapBindCred.try_from,
    LdapBindCred.toTag, StructureTag.cls, StructureTag.id,
    string_from_utf8_valid hdn, string_from_utf8_valid hpw,
    Types.Integer, Types.OctetString,
    show ber_integer_to_i64 (berIntEncode 3) = some 3 from by decide]

theorem bindResponse_round (r : LdapBindResponse) (h : r.wf) :
    LdapBindResponse.try_from (intoStructureList r.toTags) = some r := by
  obtain ⟨res, saslcreds⟩ := r
  obtain ⟨hres, hsasl⟩ := h
  have hsasl' : saslcreds = none := hsasl
  subst hsasl'
  have hr := result_round res hres []
  rw [List.append_nil] at hr
  simp [LdapBindResponse.try_from, LdapBindResponse.toTags,
    List.append_nil, hr]

theorem partialAttribute_round (a : LdapPartialAttribute) (h : a.wf) :
    LdapPartialAttribute.try_from (Tag.into_structure a.toTag) = some a := by
  obtain ⟨atype, vals⟩ := a
  have hatype : wfStr atype := h
  simp [LdapPartialAttribute.try_from, LdapPartialAttribute.toTag,
    Tag.into_structure, intoStructureList_eq_map, List.map_map,
    match_class_cons, match_id_cons, match_class_prim, match_id_prim,
    expect_primitive_prim, expect_primitive_cons, expect_constructed_prim, expect_constructed_cons,
    string_from_utf8_valid hatype, collectTags_map_some,
    Types.Sequence, Types.SetOf, Types.OctetString]

theorem substringPartsLoop_any (len : Nat) (anys : List RStr)
    (h : ∀ s ∈ anys, wfStr s) :
    ∀ (i : Nat) (tail : List StructureTag) (acc : LdapSubstringFilter),
    substringPartsLoop len i
      ((anys.map (fun s => StructureTag.prim .universal 1 s)) ++ tail) acc =
      substringPartsLoop len (i + anys.length) tail
        { acc with any := acc.any ++ anys } := by
  induction anys with
  | nil => intro i tail acc; simp
  | cons s anys ih =>
    intro i tail acc
    have hs : wfStr s := h s (by simp)
    rw [List.map_cons, List.cons_append, substringPartsLoop,
      string_from_utf8_valid hs]
    simp only [Option.some_bind]
    rw [ih (fun x hx => h x (by simp [hx])) (i + 1) tail]
    simp only [List.length_cons]
    have harith : i + 1 + anys.length = i + (anys.length + 1) := by omega
    rw [harith]
    simp [List.append_assoc]

theorem substringPartsLoop_any_nil (len : Nat) (anys : List RStr)
    (h : ∀ s ∈ anys, wfStr s) (i : Nat) (acc : LdapSubstringFilter) :
    substringPartsLoop len i
      (anys.map (fun s => StructureTag.prim .universal 1 s)) acc =
      some { acc with any := acc.any ++ anys } := by
  have hx := substringPartsLoop_any len anys h i [] acc
  rw [List.append_nil] at hx
  rw [hx, substringPartsLoop]

theorem substringPartsDecode_segments (ini : Option RStr) (anys : List RStr)
    (fin : Option RStr) (hini : ∀ s ∈ ini, wfStr s)
    (hany : ∀ s ∈ anys, wfStr s) (hfin : ∀ s ∈ fin, wfStr s) :
    substringPartsDecode
      ((ini.toList.map (fun s => StructureTag.prim .universal 0 s)) ++
        (anys.map (fun s => StructureTag.prim .universal 1 s)) ++
        (fin.toList.map (fun s => StructureTag.prim .universal 2 s))) =
      some ⟨ini, anys, fin⟩ := by
  cases ini with
  | none =>
    cases fin with
    | none =>
      simp only [Option.toList_none, List.map_nil, List.nil_append,
        List.append_nil, substringPartsDecode]
      rw [substringPartsLoop_any_nil _ anys hany 0]
      simp [LdapSubstringFilter.default]
    | some b =>
      have hb : wfStr b := hfin b (by simp)
      simp only [Option.toList_none, Option.toList_some, List.map_nil,
        List.nil_append, List.map_cons, substringPartsDecode]
      rw [substringPartsLoop_any _ anys hany 0 _]
      rw [substringPartsLoop, if_pos (by
        simp [List.length_append, List.length_map])]
      rw [string_from_utf8_valid hb]
      simp [substringPartsLoop, LdapSubstringFilter.default]
  | some a =>
    have ha : wfStr a := hini a (by simp)
    cases fin with
    | none =>
      simp only [Option.toList_some, Option.toList_none, List.map_cons,
        List.map_nil, List.append_nil, List.cons_append, List.nil_append,
        substringPartsDecode]
      rw [substringPartsLoop, if_pos rfl, string_from_utf8_valid ha]
      simp only [Option.some_bind]
      rw [substringPartsLoop_any_nil _ anys hany 1]
      simp [LdapSubstringFilter.default]
    | some b =>
      have hb : wfStr b := hfin b (by simp)
      simp only [Option.toList_some, List.map_cons, List.map_nil,
        List.cons_append, List.nil_append, substringPartsDecode]
      rw [substringPartsLoop, if_pos rfl, string_from_utf8_valid ha]
      simp only [Option.some_bind]
      rw [substringPartsLoop_any _ anys hany 1 _]
      rw [substringPartsLoop, if_pos (by
        simp [List.length_append, List.length_map, List.length_cons]
        omega)]
      rw [string_from_utf8_valid hb]
      simp [substringPartsLoop, LdapSubstringFilter.default]

mutual

theorem filter_round (strict : Bool) :
    ∀ f : LdapFilter, f.wf →
      LdapFilter.try_from strict (Tag.into_structure f.toTag) = some f
  | .and fs, h => by
      rw [LdapFilter.toTag]
      simp [Tag.into_structure, LdapFilter.try_from,
        filterList_round strict fs h]
  | .or fs, h => by
      rw [LdapFilter.toTag]
      simp [Tag.into_structure, LdapFilter.try_from,
        filterList_round strict fs h]
  | .not f, h => by
      rw [LdapFilter.toTag]
      simp [Tag.into_structure, LdapFilter.try_from, intoStructureList,
        List.getLast?, filter_round strict f h]
  | .equality a v, h => by
      obtain ⟨ha, hv⟩ := h
      rw [LdapFilter.toTag]
      cases strict <;>
        simp [Tag.into_structure, LdapFilter.try_from, value0,
          intoStructureList, match_class_prim, match_id_prim,
          expect_primitive_prim, expect_primitive_cons, string_from_utf8_valid ha,
          string_from_utf8_valid hv, Types.OctetString]
  | .substring t f, h => by
      obtain ⟨ht, hini, hany, hfin⟩ := h
      rw [LdapFilter.toTag]
      have hseg := substringPartsDecode_segments f.initial f.any f.final_
        hini hany hfin
      simp only [List.append_assoc] at hseg
      simp [Tag.into_structure, LdapFilter.try_from, value0,
        intoStructureList_eq_map, List.map_map, List.map_append,
        Function.comp_def,
        match_class_prim, match_class_cons, match_id_prim, match_id_cons,
        expect_primitive_prim, expect_primitive_cons, expect_constructed_prim, expect_constructed_cons,
        string_from_utf8_valid ht, hseg, Types.OctetString, Types.Sequence]
  | .present a, h => by
      rw [LdapFilter.toTag]
      simp [Tag.into_structure, LdapFilter.try_from,
        expect_primitive_prim, expect_primitive_cons, string_from_utf8_valid h]

theorem filterList_round (strict : Bool) :
    ∀ fs : List LdapFilter, LdapFilter.wfList fs →
      LdapFilter.tryFromList strict
        (intoStructureList (LdapFilter.toTagList fs)) = some fs
  | [], _ => by
      rw [LdapFilter.toTagList, intoStructureList, LdapFilter.tryFromList]
  | f :: fs, h => by
      obtain ⟨hf, hfs⟩ := h
      rw [LdapFilter.toTagList, intoStructureList, LdapFilter.tryFromList,
        filter_round strict f hf, filterList_round strict fs hfs]
      rfl

end

theorem parseBerFull_berEncode_nil (t : StructureTag) :
    parseBerFull (berEncode t) = some (t, []) := by
  have hx := parseBerFull_berEncode t []
  rwa [List.append_nil] at hx

theorem result_round_nil (r : LdapResult) (h : r.wf) :
    LdapResult.try_from_tag (intoStructureList r.intoTags) = some (r, []) := by
  have hx := result_round r h []
  rw [List.append_nil] at hx
  simpa using hx

theorem scope_toI64_round (s : LdapSearchScope) :
    ber_integer_to_i64 (berIntEncode s.toI64) = some s.toI64 := by
  cases s <;> decide

theorem scope_of_toI64 (s : LdapSearchScope) :
    LdapSearchScope.try_from s.toI64 = some s := by
  cases s <;> decide

theorem deref_toI64_round (s : LdapDerefAliases) :
    ber_integer_to_i64 (berIntEncode s.toI64) = some s.toI64 := by
  cases s <;> decide

theorem deref_of_toI64 (s : LdapDerefAliases) :
    LdapDerefAliases.try_from s.toI64 = some s := by
  cases s <;> decide

theorem modifyType_toI64_round (s : LdapModifyType) :
    ber_integer_to_i64 (berIntEncode s.toI64) = some s.toI64 := by
  cases s <;> decide

theorem modifyType_of_toI64 (s : LdapModifyType) :
    LdapModifyType.try_from s.toI64 = some s := by
  cases s <;> decide

theorem searchRequest_round (strict : Bool) (r : LdapSearchRequest)
    (h : r.wf strict) :
    LdapSearchRequest.try_from strict (intoStructureList r.toTags) =
      some r := by
  obtain ⟨base, scope, aliases, sizelimit, timelimit, typesonly, filter,
    attrs⟩ := r
  obtain ⟨hbase, hsz0, htl0, hfil, hattrs, hstrict⟩ := h
  have hsz : wfI32 sizelimit := hsz0
  have htl : wfI32 timelimit := htl0
  have hszr : ber_integer_to_i64 (berIntEncode sizelimit) = some sizelimit :=
    ber_int_round _ hsz.1 (by have := hsz.2; simp [wfI32] at hsz ⊢; omega)
  have hsz32 : i64_as_i32 sizelimit = sizelimit :=
    i64_as_i32_of_range _ hsz.1 hsz.2
  have htlr : ber_integer_to_i64 (berIntEncode timelimit) = some timelimit :=
    ber_int_round _ htl.1 (by have := htl.2; simp [wfI32] at htl ⊢; omega)
  have htl32 : i64_as_i32 timelimit = timelimit :=
    i64_as_i32_of_range _ htl.1 htl.2
  have hfilr := filter_round strict filter hfil
  cases strict with
  | false =>
    have hattrs' : attrs = [] := hstrict rfl
    subst hattrs'
    simp [LdapSearchRequest.try_from, LdapSearchRequest.toTags,
      intoStructureList, Tag.into_structure, match_class_prim,
      match_class_cons, match_id_prim, match_id_cons,
      expect_primitive_prim, expect_primitive_cons, expect_constructed_prim, expect_constructed_cons,
      string_from_utf8_valid hbase, hszr, hsz32, htlr, htl32,
      ber_bool_round, hfilr, collectTags,
      scope_toI64_round, scope_of_toI64,
      deref_toI64_round, deref_of_toI64,
      Types.Integer, Types.OctetString, Types.Enumerated, Types.Boolean,
      Types.Sequence]
  | true =>
    have hutf : ∀ a ∈ attrs, string_from_utf8 a = some a :=
      fun a ha => string_from_utf8_valid (hattrs a ha)
    simp [LdapSearchRequest.try_from, LdapSearchRequest.toTags,
      intoStructureList_eq_map, List.map_map, Tag.into_structure,
      match_class_prim, match_class_cons, match_id_prim, match_id_cons,
      expect_primitive_prim, expect_primitive_cons, expect_constructed_prim, expect_constructed_cons,
      string_from_utf8_valid hbase, hszr, hsz32, htlr, htl32,
      ber_bool_round, hfilr,
      scope_toI64_round, scope_of_toI64,
      deref_toI64_round, deref_of_toI64,
      Types.Integer, Types.OctetString, Types.Enumerated, Types.Boolean,
      Types.Sequence]
    rw [collectTags_map_some _ _ attrs (fun a ha => by
      simp [Function.comp, Tag.into_structure, match_class_prim,
        match_id_prim, expect_primitive_prim, hutf a ha])]
    simp

theorem modify_round (m : LdapModify) (h : m.wf) :
    LdapModify.try_from (Tag.into_structure m.toTag) = some m := by
  obtain ⟨operation, modification⟩ := m
  obtain ⟨matype, mvals⟩ := modification
  have hatype : wfStr matype := h
  simp [LdapModify.try_from, LdapModify.toTag, LdapPartialAttribute.try_from,
    LdapPartialAttribute.toTag, Tag.into_structure, intoStructureList_eq_map,
    List.map_map, Function.comp_def, match_class_prim, match_class_cons,
    match_id_prim, match_id_cons, expect_primitive_prim,
    expect_primitive_cons, expect_constructed_prim, expect_constructed_cons,
    string_from_utf8_valid hatype, collectTags_map_some,
    modifyType_toI64_round, modifyType_of_toI64,
    Types.Boolean, Types.Integer, Types.OctetString, Types.Enumerated,
    Types.Sequence, Types.SetOf]

theorem partialAttribute_round_norm (a : LdapPartialAttribute)
    (h : a.wf) :
    LdapPartialAttribute.try_from
      (StructureTag.cons .universal 16
        [.prim .universal 4 a.atype,
         .cons .universal 17
           (List.map (fun v => StructureTag.prim .universal 4 v) a.vals)]) =
      some a := by
  have hx := partialAttribute_round a h
  simp only [LdapPartialAttribute.toTag, Tag.into_structure,
    intoStructureList_eq_map, List.map_map, Function.comp_def,
    List.map_cons, List.map_nil, Types.Boolean, Types.Integer, Types.OctetString, Types.Enumerated,
    Types.Sequence, Types.SetOf] at hx
  exact hx

theorem modify_round_norm (c : LdapModify) (h : c.wf) :
    LdapModify.try_from
      (StructureTag.cons .universal 16
        [.prim .universal 10 (berIntEncode c.operation.toI64),
         .cons .universal 16
           [.prim .universal 4 c.modification.atype,
            .cons .universal 17
              (List.map (fun v => StructureTag.prim .universal 4 v)
                c.modification.vals)]]) = some c := by
  have hx := modify_round c h
  simp only [LdapModify.toTag, LdapPartialAttribute.toTag,
    Tag.into_structure, intoStructureList_eq_map, List.map_map,
    Function.comp_def, List.map_cons, List.map_nil, Types.Boolean, Types.Integer, Types.OctetString, Types.Enumerated,
    Types.Sequence, Types.SetOf] at hx
  exact hx

theorem searchResultEntry_round (r : LdapSearchResultEntry) (h : r.wf) :
    LdapSearchResultEntry.try_from (intoStructureList r.toTags) = some r := by
  obtain ⟨dn, attributes⟩ := r
  obtain ⟨hdn, hattr⟩ := h
  simp [LdapSearchResultEntry.try_from, LdapSearchResultEntry.toTags,
    intoStructureList_eq_map, List.map_map, Function.comp_def,
    Tag.into_structure, match_class_prim, match_class_cons, match_id_prim,
    match_id_cons, expect_primitive_prim, expect_primitive_cons,
    expect_constructed_prim, expect_constructed_cons,
    string_from_utf8_valid hdn, Types.Boolean, Types.Integer, Types.OctetString, Types.Enumerated,
    Types.Sequence, Types.SetOf]
  rw [collectTags_map_some _ _ attributes
    (fun a ha => partialAttribute_round_norm a (hattr a ha))]
  simp

theorem modifyRequest_round (r : LdapModifyRequest) (h : r.wf) :
    LdapModifyRequest.try_from (intoStructureList r.toTags) = some r := by
  obtain ⟨dn, changes⟩ := r
  obtain ⟨hdn, hch⟩ := h
  simp [LdapModifyRequest.try_from, LdapModifyRequest.toTags,
    intoStructureList_eq_map, List.map_map, Function.comp_def,
    Tag.into_structure, match_class_prim, match_class_cons, match_id_prim,
    match_id_cons, expect_primitive_prim, expect_primitive_cons,
    expect_constructed_prim, expect_constructed_cons,
    string_from_utf8_valid hdn, Types.Boolean, Types.Integer, Types.OctetString, Types.Enumerated,
    Types.Sequence, Types.SetOf]
  rw [collectTags_map_some _ _ changes
    (fun c hc => modify_round_norm c (hch c hc))]
  simp

theorem addRequest_round (r : LdapAddRequest) (h : r.wf) :
    LdapAddRequest.try_from (intoStructureList r.toTags) = some r := by
  obtain ⟨dn, attributes⟩ := r
  obtain ⟨hdn, hattr⟩ := h
  simp [LdapAddRequest.try_from, LdapAddRequest.toTags,
    intoStructureList_eq_map, List.map_map, Function.comp_def,
    Tag.into_structure, match_class_prim, match_class_cons, match_id_prim,
    match_id_cons, expect_primitive_prim, expect_primitive_cons,
    expect_constructed_prim, expect_constructed_cons,
    string_from_utf8_valid hdn, Types.Boolean, Types.Integer, Types.OctetString, Types.Enumerated,
    Types.Sequence, Types.SetOf]
  rw [collectTags_map_some _ _ attributes
    (fun a ha => partialAttribute_round_norm a (hattr a ha))]
  simp

theorem extendedRequest_round (r : LdapExtendedRequest) (h : r.wf) :
    LdapExtendedRequest.try_from (intoStructureList r.toTags) = some r := by
  obtain ⟨name, value⟩ := r
  cases value <;>
    simp [LdapExtendedRequest.try_from, LdapExtendedRequest.toTags,
      intoStructureList, Tag.into_structure, match_class_prim,
      match_id_prim, expect_primitive_prim, expect_primitive_cons,
      string_from_utf8_valid h]

theorem extendedResponse_round (r : LdapExtendedResponse) (h : r.wf) :
    LdapExtendedResponse.try_from (intoStructureList r.toTags) = some r := by
  obtain ⟨⟨code, matcheddn, message, referral⟩, name, value⟩ := r
  obtain ⟨⟨hdn, hmsg, href⟩, hname⟩ := h
  have href' : referral = [] := href
  subst href'
  cases name with
  | none =>
    cases value with
    | none =>
      simp [LdapExtendedResponse.try_from, LdapExtendedResponse.toTags,
        LdapResult.intoTags, LdapResult.try_from_tag, intoStructureList,
        Tag.into_structure, match_class_prim, match_id_prim,
        expect_primitive_prim, StructureTag.id, StructureTag.cls,
        string_from_utf8_valid hdn, string_from_utf8_valid hmsg,
        resultCode_toI64_round, resultCode_of_toI64,
        Types.Boolean, Types.Integer, Types.OctetString, Types.Enumerated,
        Types.Sequence, Types.SetOf]
    | some v =>
      simp [LdapExtendedResponse.try_from, LdapExtendedResponse.toTags,
        LdapResult.intoTags, LdapResult.try_from_tag, intoStructureList,
        Tag.into_structure, match_class_prim, match_id_prim,
        expect_primitive_prim, StructureTag.id, StructureTag.cls,
        string_from_utf8_valid hdn, string_from_utf8_valid hmsg,
        resultCode_toI64_round, resultCode_of_toI64,
        Types.Boolean, Types.Integer, Types.OctetString, Types.Enumerated,
        Types.Sequence, Types.SetOf]
  | some n =>
    have hn : wfStr n := hname n (by simp)
    cases value with
    | none =>
      simp [LdapExtendedResponse.try_from, LdapExtendedResponse.toTags,
        LdapResult.intoTags, LdapResult.try_from_tag, intoStructureList,
        Tag.into_structure, match_class_prim, match_id_prim,
        expect_primitive_prim, StructureTag.id, StructureTag.cls,
        string_from_utf8_valid hdn, string_from_utf8_valid hmsg,
        string_from_utf8_valid hn,
        resultCode_toI64_round, resultCode_of_toI64,
        Types.Boolean, Types.Integer, Types.OctetString, Types.Enumerated,
        Types.Sequence, Types.SetOf]
    | some v =>
      simp [LdapExtendedResponse.try_from, LdapExtendedResponse.toTags,
        LdapResult.intoTags, LdapResult.try_from_tag, intoStructureList,
        Tag.into_structure, match_class_prim, match_id_prim,
        expect_primitive_prim, StructureTag.id, StructureTag.cls,
        string_from_utf8_valid hdn, string_from_utf8_valid hmsg,
        string_from_utf8_valid hn,
        resultCode_toI64_round, resultCode_of_toI64,
        Types.Boolean, Types.Integer, Types.OctetString, Types.Enumerated,
        Types.Sequence, Types.SetOf]

/-- Shared simp facts for decoding the four control OIDs. -/
theorem strBytes_oid1_utf8 : string_from_utf8 (strBytes "1.3.6.1.4.1.4203.1.9.1.1")
    = some (strBytes "1.3.6.1.4.1.4203.1.9.1.1") := string_from_utf8_valid (by decide)

theorem strBytes_oid2_utf8 : string_from_utf8 (strBytes "1.3.6.1.4.1.4203.1.9.1.2")
    = some (strBytes "1.3.6.1.4.1.4203.1.9.1.2") := string_from_utf8_valid (by decide)

theorem strBytes_oid3_utf8 : string_from_utf8 (strBytes "1.3.6.1.4.1.4203.1.9.1.3")
    = some (strBytes "1.3.6.1.4.1.4203.1.9.1.3") := string_from_utf8_valid (by decide)

theorem strBytes_oid4_utf8 : string_from_utf8 (strBytes "1.2.840.113556.1.4.841")
    = some (strBytes "1.2.840.113556.1.4.841") := string_from_utf8_valid (by decide)

theorem strBytes_oid21 : strBytes "1.3.6.1.4.1.4203.1.9.1.2" ≠ strBytes "1.3.6.1.4.1.4203.1.9.1.1" := by decide

theorem strBytes_oid31 : strBytes "1.3.6.1.4.1.4203.1.9.1.3" ≠ strBytes "1.3.6.1.4.1.4203.1.9.1.1" := by decide

theorem strBytes_oid32 : strBytes "1.3.6.1.4.1.4203.1.9.1.3" ≠ strBytes "1.3.6.1.4.1.4203.1.9.1.2" := by decide

theorem strBytes_oid41 : strBytes "1.2.840.113556.1.4.841" ≠ strBytes "1.3.6.1.4.1.4203.1.9.1.1" := by decide

theorem strBytes_oid42 : strBytes "1.2.840.113556.1.4.841" ≠ strBytes "1.3.6.1.4.1.4203.1.9.1.2" := by decide

theorem strBytes_oid43 : strBytes "1.2.840.113556.1.4.841" ≠ strBytes "1.3.6.1.4.1.4203.1.9.1.3" := by decide

theorem ber_int_round_0 : ber_integer_to_i64 (berIntEncode 0) = some 0 :=
  ber_int_round 0 (by norm_num) (by norm_num)

theorem ber_int_round_1 : ber_integer_to_i64 (berIntEncode 1) = some 1 :=
  ber_int_round 1 (by norm_num) (by norm_num)

theorem ber_int_round_2 : ber_integer_to_i64 (berIntEncode 2) = some 2 :=
  ber_int_round 2 (by norm_num) (by norm_num)

theorem ber_int_round_3 : ber_integer_to_i64 (berIntEncode 3) = some 3 :=
  ber_int_round 3 (by norm_num) (by norm_num)

set_option maxHeartbeats 2000000 in
theorem control_round (c : LdapControl) (h : c.wf) :
    LdapControl.try_from (Tag.into_structure c.toTag) = some c := by
  cases c with
  | syncRequest crit mode cookie hint =>
    simp only [LdapControl.wf] at h
    cases cookie with
    | none =>
      cases hint with
      | true => simp at h
      | false =>
        cases crit <;> cases mode <;>
          simp [LdapControl.try_from, LdapControl.toTag, Tag.into_structure,
            intoStructureList, match_class_prim, match_class_cons,
            match_id_prim, match_id_cons, expect_primitive_prim,
            expect_constructed_cons, StructureTag.id, StructureTag.cls,
            strBytes_oid1_utf8, parseBerFull_berEncode_nil,
            ber_int_round_1, ber_int_round_3, ber_bool_to_bool,
            SyncRequestMode.toI64, Types.Boolean, Types.Integer,
            Types.OctetString, Types.Enumerated, Types.Sequence, Types.SetOf]
    | some ck =>
      cases crit <;> cases mode <;> cases hint <;>
        simp [LdapControl.try_from, LdapControl.toTag, Tag.into_structure,
          intoStructureList, match_class_prim, match_class_cons,
          match_id_prim, match_id_cons, expect_primitive_prim,
          expect_constructed_cons, StructureTag.id, StructureTag.cls,
          strBytes_oid1_utf8, parseBerFull_berEncode_nil,
          ber_int_round_1, ber_int_round_3, ber_bool_to_bool,
          SyncRequestMode.toI64, Types.Boolean, Types.Integer,
          Types.OctetString, Types.Enumerated, Types.Sequence, Types.SetOf]
  | syncState state uuid cookie =>
    simp only [LdapControl.wf] at h
    cases cookie <;> cases state <;>
      simp [LdapControl.try_from, LdapControl.toTag, Tag.into_structure,
        intoStructureList, match_class_prim, match_class_cons,
        match_id_prim, match_id_cons, expect_primitive_prim,
        expect_constructed_cons, StructureTag.id, StructureTag.cls,
        strBytes_oid2_utf8, strBytes_oid21, parseBerFull_berEncode_nil,
        ber_int_round_0, ber_int_round_1, ber_int_round_2, ber_int_round_3,
        uuid_from_slice, h, SyncStateValue.toI64, Types.Boolean,
        Types.Integer, Types.OctetString, Types.Enumerated, Types.Sequence,
        Types.SetOf]
  | syncDone cookie rd =>
    simp only [LdapControl.wf] at h
    cases cookie with
    | none =>
      cases rd with
      | true => simp at h
      | false =>
        simp [LdapControl.try_from, LdapControl.toTag, Tag.into_structure,
          intoStructureList, match_class_prim, match_class_cons,
          match_id_prim, match_id_cons, expect_primitive_prim,
          expect_constructed_cons, StructureTag.id, StructureTag.cls,
          strBytes_oid3_utf8, strBytes_oid31, strBytes_oid32,
          parseBerFull_berEncode_nil, ber_bool_to_bool, Types.Boolean,
          Types.Integer, Types.OctetString, Types.Enumerated, Types.Sequence,
          Types.SetOf]
    | some ck =>
      cases rd <;>
        simp [LdapControl.try_from, LdapControl.toTag, Tag.into_structure,
          intoStructureList, match_class_prim, match_class_cons,
          match_id_prim, match_id_cons, expect_primitive_prim,
          expect_constructed_cons, StructureTag.id, StructureTag.cls,
          strBytes_oid3_utf8, strBytes_oid31, strBytes_oid32,
          parseBerFull_berEncode_nil, ber_bool_to_bool, Types.Boolean,
          Types.Integer, Types.OctetString, Types.Enumerated, Types.Sequence,
          Types.SetOf]
  | adDirsync flags max_bytes cookie =>
    obtain ⟨⟨hf0, hf1⟩, ⟨hm0, hm1⟩, hck⟩ := h
    have hf := ber_int_round flags hf0 hf1
    have hm := ber_int_round max_bytes hm0 hm1
    cases cookie with
    | none => simp at hck
    | some ck =>
      simp [LdapControl.try_from, LdapControl.toTag, Tag.into_structure,
        intoStructureList, match_class_prim, match_class_cons,
        match_id_prim, match_id_cons, expect_primitive_prim,
        expect_constructed_cons, StructureTag.id, StructureTag.cls,
        strBytes_oid4_utf8, strBytes_oid41, strBytes_oid42, strBytes_oid43,
        parseBerFull_berEncode_nil, hf, hm, Types.Boolean, Types.Integer,
        Types.OctetString, Types.Enumerated, Types.Sequence, Types.SetOf]

theorem syncInfoOid_utf8 :
    string_from_utf8 syncInfoOid = some syncInfoOid :=
  string_from_utf8_valid (by decide)

set_option maxHeartbeats 2000000 in
theorem intermediateResponse_round (r : LdapIntermediateResponse)
    (h : r.wf) :
    LdapIntermediateResponse.try_from (intoStructureList r.toTags) =
      some r := by
  have hoid := syncInfoOid_utf8
  cases r with
  | syncInfoNewCookie cookie =>
    simp [LdapIntermediateResponse.try_from, LdapIntermediateResponse.toTags,
        syncInfoEnvelope, intoStructureList, Tag.into_structure,
        match_class_prim, match_class_cons, match_id_prim, match_id_cons,
        expect_primitive_prim, expect_constructed_cons, StructureTag.id,
        StructureTag.cls, hoid, parseBerFull_berEncode_nil, foldTags,
        ber_bool_to_bool, Types.Boolean, Types.Integer, Types.OctetString,
        Types.Enumerated, Types.Sequence, Types.SetOf]
  | syncInfoRefreshDelete cookie done =>
    cases cookie <;> cases done <;>
      simp [LdapIntermediateResponse.try_from, LdapIntermediateResponse.toTags,
        syncInfoEnvelope, intoStructureList, Tag.into_structure,
        match_class_prim, match_class_cons, match_id_prim, match_id_cons,
        expect_primitive_prim, expect_constructed_cons, StructureTag.id,
        StructureTag.cls, hoid, parseBerFull_berEncode_nil, foldTags,
        ber_bool_to_bool, Types.Boolean, Types.Integer, Types.OctetString,
        Types.Enumerated, Types.Sequence, Types.SetOf]
  | syncInfoRefreshPresent cookie done =>
    simp only [LdapIntermediateResponse.wf] at h
    cases cookie with
    | none =>
      cases done <;>
        simp [LdapIntermediateResponse.try_from, LdapIntermediateResponse.toTags,
        syncInfoEnvelope, intoStructureList, Tag.into_structure,
        match_class_prim, match_class_cons, match_id_prim, match_id_cons,
        expect_primitive_prim, expect_constructed_cons, StructureTag.id,
        StructureTag.cls, hoid, parseBerFull_berEncode_nil, foldTags,
        ber_bool_to_bool, Types.Boolean, Types.Integer, Types.OctetString,
        Types.Enumerated, Types.Sequence, Types.SetOf]
    | some ck =>
      have hd : done = false := h rfl
      subst hd
      simp [LdapIntermediateResponse.try_from, LdapIntermediateResponse.toTags,
        syncInfoEnvelope, intoStructureList, Tag.into_structure,
        match_class_prim, match_class_cons, match_id_prim, match_id_cons,
        expect_primitive_prim, expect_constructed_cons, StructureTag.id,
        StructureTag.cls, hoid, parseBerFull_berEncode_nil, foldTags,
        ber_bool_to_bool, Types.Boolean, Types.Integer, Types.OctetString,
        Types.Enumerated, Types.Sequence, Types.SetOf]
  | syncInfoIdSet cookie rd uuids =>
    obtain ⟨hcr, huu⟩ := h
    have huuchain : ∀ u ∈ uuids,
        (((((StructureTag.prim TagClass.universal Types.OctetString
            u).match_class TagClass.universal).bind
          (StructureTag.match_id Types.OctetString)).bind
          StructureTag.expect_primitive).bind uuid_from_slice) = some u := by
      intro u hu
      simp [match_class_prim, match_id_prim, expect_primitive_prim,
        uuid_from_slice, huu u hu]
    cases cookie with
    | none =>
      cases rd <;>
        (simp [intoStructureList_eq_map, List.map_map, Function.comp_def,
        LdapIntermediateResponse.try_from, LdapIntermediateResponse.toTags,
        syncInfoEnvelope, intoStructureList, Tag.into_structure,
        match_class_prim, match_class_cons, match_id_prim, match_id_cons,
        expect_primitive_prim, expect_constructed_cons, StructureTag.id,
        StructureTag.cls, hoid, parseBerFull_berEncode_nil, foldTags,
        ber_bool_to_bool, Types.Boolean, Types.Integer, Types.OctetString,
        Types.Enumerated, Types.Sequence, Types.SetOf];
         rw [collectTags_map_some _ _ uuids huuchain];
         simp)
    | some ck =>
      have hrd : rd = true := hcr rfl
      subst hrd
      simp [intoStructureList_eq_map, List.map_map, Function.comp_def,
        LdapIntermediateResponse.try_from, LdapIntermediateResponse.toTags,
        syncInfoEnvelope, intoStructureList, Tag.into_structure,
        match_class_prim, match_class_cons, match_id_prim, match_id_cons,
        expect_primitive_prim, expect_constructed_cons, StructureTag.id,
        StructureTag.cls, hoid, parseBerFull_berEncode_nil, foldTags,
        ber_bool_to_bool, Types.Boolean, Types.Integer, Types.OctetString,
        Types.Enumerated, Types.Sequence, Types.SetOf]
      rw [collectTags_map_some _ _ uuids huuchain]
      simp
  | raw name value =>
    obtain ⟨hname, hnv⟩ := h
    cases name with
    | none =>
      cases value <;>
        simp [LdapIntermediateResponse.try_from, LdapIntermediateResponse.toTags,
        syncInfoEnvelope, intoStructureList, Tag.into_structure,
        match_class_prim, match_class_cons, match_id_prim, match_id_cons,
        expect_primitive_prim, expect_constructed_cons, StructureTag.id,
        StructureTag.cls, hoid, parseBerFull_berEncode_nil, foldTags,
        ber_bool_to_bool, Types.Boolean, Types.Integer, Types.OctetString,
        Types.Enumerated, Types.Sequence, Types.SetOf]
    | some n =>
      have hn : wfStr n := hname n (by simp)
      cases value with
      | none =>
        simp [LdapIntermediateResponse.try_from, LdapIntermediateResponse.toTags,
        syncInfoEnvelope, intoStructureList, Tag.into_structure,
        match_class_prim, match_class_cons, match_id_prim, match_id_cons,
        expect_primitive_prim, expect_constructed_cons, StructureTag.id,
        StructureTag.cls, hoid, parseBerFull_berEncode_nil, foldTags,
        ber_bool_to_bool, Types.Boolean, Types.Integer, Types.OctetString,
        Types.Enumerated, Types.Sequence, Types.SetOf, string_from_utf8_valid hn]
      | some v =>
        have hne : n ≠ syncInfoOid := by
          intro he
          exact hnv ⟨by rw [he], rfl⟩
        simp [LdapIntermediateResponse.try_from, LdapIntermediateResponse.toTags,
        syncInfoEnvelope, intoStructureList, Tag.into_structure,
        match_class_prim, match_class_cons, match_id_prim, match_id_cons,
        expect_primitive_prim, expect_constructed_cons, StructureTag.id,
        StructureTag.cls, hoid, parseBerFull_berEncode_nil, foldTags,
        ber_bool_to_bool, Types.Boolean, Types.Integer, Types.OctetString,
        Types.Enumerated, Types.Sequence, Types.SetOf, string_from_utf8_valid hn, hne]

set_option maxHeartbeats 4000000 in
theorem op_round (strict : Bool) (o : LdapOp) (h : o.wf strict) :
    LdapOp.try_from strict (Tag.into_structure o.toTag) = some o := by
  cases o with
  | bindRequest r => simp [LdapOp.try_from, LdapOp.toTag, Tag.into_structure, StructureTag.cls, StructureTag.id, bindRequest_round r h]
  | bindResponse r => simp [LdapOp.try_from, LdapOp.toTag, Tag.into_structure, StructureTag.cls, StructureTag.id, bindResponse_round r h]
  | unbindRequest => simp [LdapOp.try_from, LdapOp.toTag, Tag.into_structure, StructureTag.cls, StructureTag.id]
  | searchRequest r => simp [LdapOp.try_from, LdapOp.toTag, Tag.into_structure, StructureTag.cls, StructureTag.id, searchRequest_round strict r h]
  | searchResultEntry r => simp [LdapOp.try_from, LdapOp.toTag, Tag.into_structure, StructureTag.cls, StructureTag.id, searchResultEntry_round r h]
  | searchResultDone r => simp [LdapOp.try_from, LdapOp.toTag, Tag.into_structure, StructureTag.cls, StructureTag.id, result_round_nil r h]
  | modifyRequest r => simp [LdapOp.try_from, LdapOp.toTag, Tag.into_structure, StructureTag.cls, StructureTag.id, modifyRequest_round r h]
  | modifyResponse r => simp [LdapOp.try_from, LdapOp.toTag, Tag.into_structure, StructureTag.cls, StructureTag.id, result_round_nil r h]
  | addRequest r => simp [LdapOp.try_from, LdapOp.toTag, Tag.into_structure, StructureTag.cls, StructureTag.id, addRequest_round r h]
  | addResponse r => simp [LdapOp.try_from, LdapOp.toTag, Tag.into_structure, StructureTag.cls, StructureTag.id, result_round_nil r h]
  | delRequest dn => simp [LdapOp.try_from, LdapOp.toTag, Tag.into_structure, StructureTag.cls, StructureTag.id, string_from_utf8_valid h]
  | delResponse r => simp [LdapOp.try_from, LdapOp.toTag, Tag.into_structure, StructureTag.cls, StructureTag.id, result_round_nil r h]
  | abandonRequest i =>
    obtain ⟨h0, h1⟩ := h
    have hi := ber_int_round i h0 (by norm_num at h1 ⊢; omega)
    have hc := i64_as_i32_of_range i h0 h1
    simp [LdapOp.try_from, LdapOp.toTag, Tag.into_structure, StructureTag.cls, StructureTag.id, hi, hc]
  | extendedRequest r => simp [LdapOp.try_from, LdapOp.toTag, Tag.into_structure, StructureTag.cls, StructureTag.id, extendedRequest_round r h]
  | extendedResponse r => simp [LdapOp.try_from, LdapOp.toTag, Tag.into_structure, StructureTag.cls, StructureTag.id, extendedResponse_round r h]
  | intermediateResponse r =>
    simp [LdapOp.try_from, LdapOp.toTag, Tag.into_structure, StructureTag.cls, StructureTag.id, intermediateResponse_round r h]

set_option maxHeartbeats 2000000 in
theorem msg_round (strict : Bool) (m : LdapMsg) (h : m.wf strict) :
    LdapMsg.try_from strict m.toStructureTag = some m := by
  obtain ⟨msgid, op, ctrl⟩ := m
  obtain ⟨⟨h0, h1⟩, hop, hctrl⟩ := h
  have hi := ber_int_round msgid h0 (by norm_num at h1 ⊢; omega)
  have hc := i64_as_i32_of_range msgid h0 h1
  have hopr := op_round strict op hop
  cases hce : ctrl.isEmpty with
  | true =>
    have hcnil : ctrl = [] := by
      cases ctrl with
      | nil => rfl
      | cons a l => simp [List.isEmpty] at hce
    subst hcnil
    simp [LdapMsg.try_from, LdapMsg.toStructureTag, Tag.into_structure,
      intoStructureList, match_class_prim, match_class_cons, match_id_prim,
      match_id_cons, expect_primitive_prim, expect_constructed_cons,
      StructureTag.id, StructureTag.cls, hi, hc, hopr, Types.Boolean,
      Types.Integer, Types.OctetString, Types.Enumerated, Types.Sequence,
      Types.SetOf]
  | false =>
    have hmap : (ctrl.map (fun c =>
        Tag.into_structure (LdapControl.toTag c))).filterMap
        LdapControl.try_from = ctrl :=
      filterMap_map_some _ _ ctrl (fun c hcm => control_round c (hctrl c hcm))
    have e2 : (Tag.integer TagClass.universal Types.Integer msgid).into_structure
        = StructureTag.prim TagClass.universal 2 (berIntEncode msgid) := rfl
    have e3 : (Tag.sequence TagClass.context 0
          (ctrl.map LdapControl.toTag)).into_structure
        = StructureTag.cons TagClass.context 0
            (List.map (fun c => Tag.into_structure (LdapControl.toTag c)) ctrl) := by
      rw [show (Tag.sequence TagClass.context 0
            (ctrl.map LdapControl.toTag)).into_structure
          = StructureTag.cons TagClass.context 0
              (intoStructureList (ctrl.map LdapControl.toTag)) from rfl,
        intoStructureList_eq_map, List.map_map]
      rfl
    simp only [LdapMsg.toStructureTag, hce, Bool.false_eq_true, if_false]
    rw [show (Tag.sequence TagClass.universal Types.Sequence
          ([Tag.integer TagClass.universal Types.Integer msgid, op.toTag] ++
            [Tag.sequence TagClass.context 0
              (ctrl.map LdapControl.toTag)])).into_structure
        = StructureTag.cons TagClass.universal 16
            [(Tag.integer TagClass.universal Types.Integer msgid).into_structure,
              op.toTag.into_structure,
              (Tag.sequence TagClass.context 0
                (ctrl.map LdapControl.toTag)).into_structure] from rfl,
      e2, e3]
    simp [LdapMsg.try_from, match_class_prim, match_class_cons,
      match_id_prim, match_id_cons, expect_primitive_prim,
      expect_constructed_cons, StructureTag.id, StructureTag.cls, hi, hc,
      hopr, hmap, Types.Boolean, Types.Integer, Types.OctetString,
      Types.Enumerated, Types.Sequence, Types.SetOf]

set_option maxHeartbeats 1000000 in
theorem codec_round (strict : Bool) (m : LdapMsg) (h : m.wf strict) :
    codecDecode strict (codecEncode m) =
      some (m, (codecEncode m).length) := by
  rw [codecDecode, codecEncode, parseBerFull_berEncode_nil]
  simp [msg_round strict m h]

/-! ## Ordering of substring parts: the success direction -/

theorem substringPartsLoop_ordering (len : Nat) :
    ∀ (bv : List StructureTag) (i : Nat) (acc f : LdapSubstringFilter),
      substringPartsLoop len i bv acc = some f →
      ∀ (j : Nat) (hj : j < bv.length),
        (bv[j].id = 0 → i + j = 0) ∧ (bv[j].id = 2 → i + j = len - 1) := by
  intro bv
  induction bv with
  | nil => intro i acc f h j hj; exact absurd hj (by simp)
  | cons t rest ih =>
    intro i acc f h j hj
    rcases t with ⟨c, tid, bs⟩ | ⟨c, tid, inner⟩
    · match tid, h with
      | 0, h =>
        rw [substringPartsLoop] at h
        by_cases hi : i = 0
        · subst hi
          rw [if_pos rfl] at h
          rcases hs : string_from_utf8 bs with _ | s
          · rw [hs] at h; exact absurd h (by simp)
          · rw [hs] at h
            simp only [Option.some_bind] at h
            cases j with
            | zero => exact ⟨fun _ => rfl, fun h2 => by simp [StructureTag.id] at h2⟩
            | succ jj =>
              have hx := ih 1 _ f h jj (by simpa using hj)
              simp only [List.getElem_cons_succ] at hx ⊢
              exact ⟨fun h0 => by have := hx.1 h0; omega,
                fun h2 => by have := hx.2 h2; omega⟩
        · rw [if_neg hi] at h; exact absurd h (by simp)
      | 1, h =>
        rw [substringPartsLoop] at h
        rcases hs : string_from_utf8 bs with _ | s
        · rw [hs] at h; exact absurd h (by simp)
        · rw [hs] at h
          simp only [Option.some_bind] at h
          cases j with
          | zero =>
            exact ⟨fun h0 => by simp [StructureTag.id] at h0,
              fun h2 => by simp [StructureTag.id] at h2⟩
          | succ jj =>
            have hx := ih (i + 1) _ f h jj (by simpa using hj)
            simp only [List.getElem_cons_succ] at hx ⊢
            exact ⟨fun h0 => by have := hx.1 h0; omega,
              fun h2 => by have := hx.2 h2; omega⟩
      | 2, h =>
        rw [substringPartsLoop] at h
        by_cases hi : i = len - 1
        · rw [if_pos hi] at h
          rcases hs : string_from_utf8 bs with _ | s
          · rw [hs] at h; exact absurd h (by simp)
          · rw [hs] at h
            simp only [Option.some_bind] at h
            cases j with
            | zero =>
              exact ⟨fun h0 => by simp [StructureTag.id] at h0, fun _ => by omega⟩
            | succ jj =>
              have hx := ih (i + 1) _ f h jj (by simpa using hj)
              simp only [List.getElem_cons_succ] at hx ⊢
              exact ⟨fun h0 => by have := hx.1 h0; omega,
                fun h2 => by have := hx.2 h2; omega⟩
        · rw [if_neg hi] at h; exact absurd h (by simp)
      | (n + 3), h =>
        rw [show substringPartsLoop len i
            (StructureTag.prim c (n + 3) bs :: rest) acc = none from rfl] at h
        exact absurd h (by simp)
    · rw [show substringPartsLoop len i
          (StructureTag.cons c tid inner :: rest) acc = none from rfl] at h
      exact absurd h (by simp)

theorem substringPartsDecode_ordering (bv : List StructureTag)
    (f : LdapSubstringFilter) (h : substringPartsDecode bv = some f) :
    ∀ (j : Nat) (hj : j < bv.length),
      (bv[j].id = 0 → j = 0) ∧ (bv[j].id = 2 → j = bv.length - 1) := by
  intro j hj
  have hx := substringPartsLoop_ordering bv.length bv 0
    LdapSubstringFilter.default f h j hj
  simpa using hx

theorem wfStr_of (s : RStr) (h : isValidUtf8 s = true) : wfStr s := h

/-- The control list of a successfully decoded three-child message whose
third child is the context-id-0 controls SEQUENCE. -/
theorem ldapMsg_ctrl_cons (strict : Bool) (mT oT : StructureTag)
    (cs : List StructureTag) (m : LdapMsg)
    (h : LdapMsg.try_from strict (.cons .universal Types.Sequence
      [mT, oT, .cons .context 0 cs]) = some m) :
    m.ctrl = cs.filterMap (fun t => LdapControl.try_from t) := by
  simp [LdapMsg.try_from, match_class_cons, match_id_cons,
    expect_constructed_cons, Types.Sequence] at h
  rcases hA : (((StructureTag.match_class TagClass.universal mT).bind
      (StructureTag.match_id Types.Integer)).bind
        StructureTag.expect_primitive).bind
        (fun a => Option.map i64_as_i32 (ber_integer_to_i64 a)) with _ | msgid
  · rw [hA] at h; simp at h
  · rw [hA] at h
    rcases hB : LdapOp.try_from strict oT with _ | op
    · rw [hB] at h; simp at h
    · rw [hB] at h
      simp at h
      rw [← h]

/-- The control list of a successfully decoded two-child message is
empty. -/
theorem ldapMsg_ctrl_two (strict : Bool) (mT oT : StructureTag)
    (m : LdapMsg)
    (h : LdapMsg.try_from strict (.cons .universal Types.Sequence
      [mT, oT]) = some m) :
    m.ctrl = [] := by
  simp [LdapMsg.try_from, match_class_cons, match_id_cons,
    expect_constructed_cons, Types.Sequence] at h
  rcases hA : (((StructureTag.match_class TagClass.universal mT).bind
      (StructureTag.match_id Types.Integer)).bind
        StructureTag.expect_primitive).bind
        (fun a => Option.map i64_as_i32 (ber_integer_to_i64 a)) with _ | msgid
  · rw [hA] at h; simp at h
  · rw [hA] at h
    rcases hB : LdapOp.try_from strict oT with _ | op
    · rw [hB] at h; simp at h
    · rw [hB] at h
      simp at h
      rw [← h]

/-! ## The claims -/

/-- **C2** (amended): the hand-written Debug formatters render secret
material as a fixed placeholder, so the rendering does not depend on the
secret: any two simple bind credentials, any two single-valued
`userPassword` attributes, any two present extended-request values and any
two present password-modify password pairs render identically.  The
literal claim, which asserts this for every `userPassword` attribute, is
refuted by `C2_counterexample`: a multi-valued `userPassword` attribute
prints its raw values. -/
theorem C2_debug_redaction :
    (∀ pw pw2 : RStr,
      LdapBindCred.dbg (.simple pw) = LdapBindCred.dbg (.simple pw2)) ∧
    (∀ v v2 : List Nat,
      LdapPartialAttribute.dbg ⟨strBytes "userPassword", [v]⟩ =
        LdapPartialAttribute.dbg ⟨strBytes "userPassword", [v2]⟩) ∧
    (∀ (name : RStr) (v v2 : List Nat),
      LdapExtendedRequest.dbg ⟨name, some v⟩ =
        LdapExtendedRequest.dbg ⟨name, some v2⟩) ∧
    (∀ (u : Option RStr) (o n o2 n2 : RStr),
      LdapPasswordModifyRequest.dbg ⟨u, some o, some n⟩ =
        LdapPasswordModifyRequest.dbg ⟨u, some o2, some n2⟩) := by
  refine ⟨fun _ _ => rfl, fun v v2 => ?_, fun _ _ _ => rfl,
    fun _ _ _ _ _ => rfl⟩
  simp [LdapPartialAttribute.dbg]

/-- **C2** counterexample: a `userPassword` attribute with two values is
not redacted; the secret byte sequence `[91, 91]` of its first value
occurs verbatim in the Debug rendering. -/
theorem C2_counterexample :
    List.IsInfix [91, 91]
      (LdapPartialAttribute.dbg
        ⟨strBytes "userPassword", [[91, 91], [91, 91]]⟩) := by decide

/-- **C3**: whenever a result body carries a context-id-3 referral element
past the three mandatory fields, decoding still succeeds only with an
empty referral list: `LdapResult.try_from_tag` discards referral
contents. -/
theorem C3_referral_discarded (value : List StructureTag) (r : LdapResult)
    (rest : List StructureTag)
    (_hpresent : ∃ t ∈ value.drop 3, t.id = 3)
    (h : LdapResult.try_from_tag value = some (r, rest)) :
    r.referral = [] := by
  simp only [LdapResult.try_from_tag, Option.bind_eq_bind,
    Option.bind_eq_some] at h
  obtain ⟨code, _, h⟩ := h
  obtain ⟨dn, _, h⟩ := h
  obtain ⟨msg, _, h⟩ := h
  cases h
  rfl

theorem C3_witness :
    LdapResult.try_from_tag
      [StructureTag.prim TagClass.universal Types.Enumerated (berIntEncode 0),
       StructureTag.prim TagClass.universal Types.OctetString [],
       StructureTag.prim TagClass.universal Types.OctetString [],
       StructureTag.cons TagClass.context 3
         [StructureTag.prim TagClass.universal Types.OctetString [97]]] =
      some (⟨.success, [], [], []⟩, []) ∧
    (⟨.success, [], [], []⟩ : LdapResult).referral = [] := by
  constructor
  · decide
  · exact C3_referral_discarded
      [StructureTag.prim TagClass.universal Types.Enumerated (berIntEncode 0),
        StructureTag.prim TagClass.universal Types.OctetString [],
        StructureTag.prim TagClass.universal Types.OctetString [],
        StructureTag.cons TagClass.context 3
          [StructureTag.prim TagClass.universal Types.OctetString [97]]]
      ⟨.success, [], [], []⟩ []
      ⟨StructureTag.cons TagClass.context 3
          [StructureTag.prim TagClass.universal Types.OctetString [97]],
        by decide, rfl⟩
      (by decide)

/-- **C4**: the encoder emits the fixed integer 3 as the first (version)
tag of every BindRequest, and the decoder rejects any version value other
than 3. -/
theorem C4_bind_version :
    (∀ r : LdapBindRequest,
      (LdapBindRequest.toTags r)[0]? =
        some (Tag.integer TagClass.universal Types.Integer 3)) ∧
    (∀ (v : Int) (rest : List StructureTag), 0 ≤ v → v < 2 ^ 63 → v ≠ 3 →
      LdapBindRequest.try_from
        (StructureTag.prim TagClass.universal Types.Integer
          (berIntEncode v) :: rest) = none) := by
  constructor
  · intro r; rfl
  · intro v rest h0 h1 hv
    simp [LdapBindRequest.try_from, match_class_prim, match_id_prim,
      expect_primitive_prim, ber_int_round v h0 h1, hv, Types.Integer]

theorem C4_witness :
    LdapBindRequest.try_from
      [StructureTag.prim TagClass.universal Types.Integer
        (berIntEncode 2)] = none :=
  C4_bind_version.2 2 [] (by norm_num) (by norm_num) (by norm_num)

/-- **C5**: the source integer decoder agrees everywhere with the
spec-worded decoder: inputs longer than 8 bytes fail, shorter inputs are
right-aligned into a zero-padded 8-byte buffer read as signed big-endian
64-bit. -/
theorem C5_integer_decode (bv : List Nat) :
    ber_integer_to_i64 bv = ber_integer_to_i64_spec bv := by
  have hf : ∀ l : List Nat,
      l.foldl (fun acc byte => 2 ^ 8 * acc + byte) 0 = fromBytes256 l := by
    intro l
    rw [fromBytes256]
    congr 1
    funext a b
    ring
  rw [ber_integer_to_i64, ber_integer_to_i64_spec]
  by_cases h : 8 < bv.length
  · simp [h]
  · simp only [gt_iff_lt, h, if_false, i64_from_be_bytes, hf]

/-- **C8**: converting a PasswordModifyRequest to an ExtendedRequest and
back restores it, for any subset of the three optional fields. -/
theorem C8_password_modify_round_trip (r : LdapPasswordModifyRequest)
    (hu : ∀ s ∈ r.user_identity, wfStr s)
    (ho : ∀ s ∈ r.old_password, wfStr s)
    (hn : ∀ s ∈ r.new_password, wfStr s) :
    LdapPasswordModifyRequest.try_from r.toExtendedRequest = some r := by
  obtain ⟨u, o, n⟩ := r
  cases u with
  | none =>
    cases o with
    | none =>
      cases n with
      | none =>
        simp [LdapPasswordModifyRequest.try_from,
          LdapPasswordModifyRequest.toExtendedRequest,
          parseBerFull_berEncode_nil, Tag.into_structure, intoStructureList,
          match_id_cons, expect_constructed_cons, foldTags,
          expect_primitive_prim, StructureTag.id, Types.Sequence,
          Types.OctetString]
      | some sn =>
        simp [LdapPasswordModifyRequest.try_from,
          LdapPasswordModifyRequest.toExtendedRequest,
          parseBerFull_berEncode_nil, Tag.into_structure, intoStructureList,
          match_id_cons, expect_constructed_cons, foldTags,
          expect_primitive_prim, StructureTag.id, Types.Sequence,
          Types.OctetString, string_from_utf8_valid (hn sn rfl)]
    | some so =>
      cases n with
      | none =>
        simp [LdapPasswordModifyRequest.try_from,
          LdapPasswordModifyRequest.toExtendedRequest,
          parseBerFull_berEncode_nil, Tag.into_structure, intoStructureList,
          match_id_cons, expect_constructed_cons, foldTags,
          expect_primitive_prim, StructureTag.id, Types.Sequence,
          Types.OctetString, string_from_utf8_valid (ho so rfl)]
      | some sn =>
        simp [LdapPasswordModifyRequest.try_from,
          LdapPasswordModifyRequest.toExtendedRequest,
          parseBerFull_berEncode_nil, Tag.into_structure, intoStructureList,
          match_id_cons, expect_constructed_cons, foldTags,
          expect_primitive_prim, StructureTag.id, Types.Sequence,
          Types.OctetString, string_from_utf8_valid (ho so rfl),
          string_from_utf8_valid (hn sn rfl)]
  | some su =>
    cases o with
    | none =>
      cases n with
      | none =>
        simp [LdapPasswordModifyRequest.try_from,
          LdapPasswordModifyRequest.toExtendedRequest,
          parseBerFull_berEncode_nil, Tag.into_structure, intoStructureList,
          match_id_cons, expect_constructed_cons, foldTags,
          expect_primitive_prim, StructureTag.id, Types.Sequence,
          Types.OctetString, string_from_utf8_valid (hu su rfl)]
      | some sn =>
        simp [LdapPasswordModifyRequest.try_from,
          LdapPasswordModifyRequest.toExtendedRequest,
          parseBerFull_berEncode_nil, Tag.into_structure, intoStructureList,
          match_id_cons, expect_constructed_cons, foldTags,
          expect_primitive_prim, StructureTag.id, Types.Sequence,
          Types.OctetString, string_from_utf8_valid (hu su rfl),
          string_from_utf8_valid (hn sn rfl)]
    | some so =>
      cases n with
      | none =>
        simp [LdapPasswordModifyRequest.try_from,
          LdapPasswordModifyRequest.toExtendedRequest,
          parseBerFull_berEncode_nil, Tag.into_structure, intoStructureList,
          match_id_cons, expect_constructed_cons, foldTags,
          expect_primitive_prim, StructureTag.id, Types.Sequence,
          Types.OctetString, string_from_utf8_valid (hu su rfl),
          string_from_utf8_valid (ho so rfl)]
      | some sn =>
        simp [LdapPasswordModifyRequest.try_from,
          LdapPasswordModifyRequest.toExtendedRequest,
          parseBerFull_berEncode_nil, Tag.into_structure, intoStructureList,
          match_id_cons, expect_constructed_cons, foldTags,
          expect_primitive_prim, StructureTag.id, Types.Sequence,
          Types.OctetString, string_from_utf8_valid (hu su rfl),
          string_from_utf8_valid (ho so rfl),
          string_from_utf8_valid (hn sn rfl)]

theorem C8_witness :
    LdapPasswordModifyRequest.try_from
      (LdapPasswordModifyRequest.toExtendedRequest
        ⟨some (strBytes "william"), some (strBytes "abcd"),
          some (strBytes "dcba")⟩) =
      some ⟨some (strBytes "william"), some (strBytes "abcd"),
        some (strBytes "dcba")⟩ :=
  C8_password_modify_round_trip _
    (by intro s hs; cases hs; exact wfStr_of _ (by decide))
    (by intro s hs; cases hs; exact wfStr_of _ (by decide))
    (by intro s hs; cases hs; exact wfStr_of _ (by decide))

/-- **C9**: the integer decoder maps the empty content vector to `some 0`
rather than failing. -/
theorem C9_empty_integer : ber_integer_to_i64 [] = some (0 : Int) := by
  decide

/-- **C1** (amended): encode-then-decode restores every well-formed
message, consuming exactly all produced bytes.  `LdapMsg.wf` excludes the
variants the decoder cannot restore — non-empty referral lists are
discarded on decode (`C1_counterexample`), search-request attribute lists
are dropped outside strict mode, and sasl credentials, out-of-range
integers and invalid UTF-8 cannot survive the wire format — so the literal
"every supported variant" reading of the claim is false, while the
round trip does hold on this domain. -/
theorem C1_round_trip (strict : Bool) (m : LdapMsg) (h : m.wf strict) :
    codecDecode strict (codecEncode m) =
      some (m, (codecEncode m).length) :=
  codec_round strict m h

theorem C1_witness :
    codecDecode false (codecEncode ⟨1, .unbindRequest, []⟩) =
      some ((⟨1, .unbindRequest, []⟩ : LdapMsg),
        (codecEncode ⟨1, .unbindRequest, []⟩).length) :=
  C1_round_trip false ⟨1, .unbindRequest, []⟩
    ⟨⟨by norm_num, by norm_num⟩, trivial, by simp⟩

/-- **C1** counterexample: a `SearchResultDone` message carrying a
non-empty referral list does not round-trip — the decoder discards the
referral contents. -/
theorem C1_counterexample :
    codecDecode false (codecEncode
      ⟨0, .searchResultDone ⟨.success, [], [], [[97]]⟩, []⟩) ≠
      some ((⟨0, .searchResultDone ⟨.success, [], [], [[97]]⟩, []⟩ : LdapMsg),
        (codecEncode
          ⟨0, .searchResultDone ⟨.success, [], [], [[97]]⟩, []⟩).length) := by
  decide

/-- **C6**: a control that fails to decode is silently dropped: removing
it from the controls child leaves the message decode unchanged, and the
decoded control list is exactly the element-wise partial decode of the
controls children. -/
theorem C6_malformed_controls_dropped (strict : Bool)
    (mT oT bad : StructureTag) (cs1 cs2 : List StructureTag)
    (hbad : LdapControl.try_from bad = none) :
    LdapMsg.try_from strict (.cons .universal Types.Sequence
      [mT, oT, .cons .context 0 (cs1 ++ bad :: cs2)]) =
    LdapMsg.try_from strict (.cons .universal Types.Sequence
      [mT, oT, .cons .context 0 (cs1 ++ cs2)]) ∧
    (∀ m, LdapMsg.try_from strict (.cons .universal Types.Sequence
        [mT, oT, .cons .context 0 (cs1 ++ cs2)]) = some m →
      m.ctrl = (cs1 ++ cs2).filterMap (fun t => LdapControl.try_from t)) := by
  constructor
  · simp [LdapMsg.try_from, match_class_cons, match_id_cons,
      expect_constructed_cons, StructureTag.id, StructureTag.cls,
      List.filterMap_append, List.filterMap_cons, hbad, Types.Sequence]
  · intro m hm
    exact ldapMsg_ctrl_cons strict mT oT (cs1 ++ cs2) m hm

theorem C6_witness :
    LdapMsg.try_from false (.cons .universal Types.Sequence
      [.prim .universal Types.Integer [1],
        .prim .application 2 [],
        .cons .context 0
          [.cons .universal 16 [.prim .universal 4 (strBytes "9.9")],
            Tag.into_structure (LdapControl.toTag
              (.syncRequest false .refreshOnly none false))]]) =
    LdapMsg.try_from false (.cons .universal Types.Sequence
      [.prim .universal Types.Integer [1],
        .prim .application 2 [],
        .cons .context 0
          [Tag.into_structure (LdapControl.toTag
            (.syncRequest false .refreshOnly none false))]]) ∧
    LdapMsg.try_from false (.cons .universal Types.Sequence
      [.prim .universal Types.Integer [1],
        .prim .application 2 [],
        .cons .context 0
          [Tag.into_structure (LdapControl.toTag
            (.syncRequest false .refreshOnly none false))]]) =
      some ⟨1, .unbindRequest, [.syncRequest false .refreshOnly none false]⟩ :=
  ⟨(C6_malformed_controls_dropped false
      (.prim .universal Types.Integer [1]) (.prim .application 2 [])
      (.cons .universal 16 [.prim .universal 4 (strBytes "9.9")]) []
      [Tag.into_structure (LdapControl.toTag
        (.syncRequest false .refreshOnly none false))]
      (by decide)).1,
    by decide⟩

/-- **C7**: in a decoded substring filter an id-0 (`initial`) part can
only stand first and an id-2 (`final`) part only last — any successful
decode satisfies this ordering, so a violating sequence fails — while
every sequence of the shape initial? ++ any* ++ final? (with valid UTF-8
contents) decodes successfully. -/
theorem C7_substring_ordering :
    (∀ (strict : Bool) (ty : RStr) (parts : List StructureTag)
      (f : LdapFilter),
      LdapFilter.try_from strict (.cons .context 4
        [.prim .universal Types.OctetString ty,
          .cons .universal Types.Sequence parts]) = some f →
      ∀ (j : Nat) (hj : j < parts.length),
        (parts[j].id = 0 → j = 0) ∧
        (parts[j].id = 2 → j = parts.length - 1)) ∧
    (∀ (strict : Bool) (ty : RStr), wfStr ty →
      ∀ (ini : Option RStr) (anys : List RStr) (fin : Option RStr),
      (∀ s ∈ ini, wfStr s) → (∀ s ∈ anys, wfStr s) →
      (∀ s ∈ fin, wfStr s) →
      LdapFilter.try_from strict (.cons .context 4
        [.prim .universal Types.OctetString ty,
          .cons .universal Types.Sequence
            ((ini.toList.map (fun s => StructureTag.prim .universal 0 s)) ++
              (anys.map (fun s => StructureTag.prim .universal 1 s)) ++
              (fin.toList.map (fun s => StructureTag.prim .universal 2 s)))]) =
        some (.substring ty ⟨ini, anys, fin⟩)) := by
  constructor
  · intro strict ty parts f h j hj
    simp [LdapFilter.try_from, value0, match_class_prim, match_class_cons,
      match_id_prim, match_id_cons, expect_primitive_prim,
      expect_constructed_cons, StructureTag.id, StructureTag.cls,
      Types.OctetString, Types.Sequence] at h
    rcases hsu : string_from_utf8 ty with _ | ty2
    · rw [hsu] at h; simp at h
    · rw [hsu] at h
      rcases hd : substringPartsDecode parts with _ | sf
      · rw [hd] at h; simp at h
      · exact substringPartsDecode_ordering parts sf hd j hj
  · intro strict ty hty ini anys fin hini hany hfin
    have hseg := substringPartsDecode_segments ini anys fin hini hany hfin
    rw [List.append_assoc] at hseg
    simp [LdapFilter.try_from, value0, match_class_prim, match_class_cons,
      match_id_prim, match_id_cons, expect_primitive_prim,
      expect_constructed_cons, StructureTag.id, StructureTag.cls,
      string_from_utf8_valid hty, hseg,
      Types.OctetString, Types.Sequence]

theorem C7_witness :
    ((0 : Nat) = 1 - 1) ∧
    LdapFilter.try_from false (.cons .context 4
      [.prim .universal Types.OctetString (strBytes "a"),
        .cons .universal Types.Sequence
          [.prim .universal 0 (strBytes "i"),
            .prim .universal 1 (strBytes "n"),
            .prim .universal 2 (strBytes "f")]]) =
      some (.substring (strBytes "a")
        ⟨some (strBytes "i"), [strBytes "n"], some (strBytes "f")⟩) := by
  constructor
  · exact (C7_substring_ordering.1 false (strBytes "a")
      [.prim .universal 2 (strBytes "f")]
      (.substring (strBytes "a") ⟨none, [], some (strBytes "f")⟩)
      (C7_substring_ordering.2 false (strBytes "a") (wfStr_of _ (by decide))
        none [] (some (strBytes "f")) (by simp) (by simp)
        (by intro s hs; cases hs; exact wfStr_of _ (by decide)))
      0 (by decide)).2 rfl
  · exact C7_substring_ordering.2 false (strBytes "a")
      (wfStr_of _ (by decide))
      (some (strBytes "i")) [strBytes "n"] (some (strBytes "f"))
      (by intro s hs; cases hs; exact wfStr_of _ (by decide))
      (by intro s hs; simp at hs; subst hs; exact wfStr_of _ (by decide))
      (by intro s hs; cases hs; exact wfStr_of _ (by decide))

/-- **C10**: a three-child LDAPMessage whose third child is not a
context-class id-0 constructed tag still decodes — to the same message as
without the third child, whose control list is empty. -/
theorem C10_third_child_ignored (strict : Bool)
    (mT oT third : StructureTag) (m : LdapMsg)
    (h3 : third.cls ≠ TagClass.context ∨ third.id ≠ 0 ∨
      third.expect_constructed = none)
    (h2 : LdapMsg.try_from strict
      (.cons .universal Types.Sequence [mT, oT]) = some m) :
    LdapMsg.try_from strict
      (.cons .universal Types.Sequence [mT, oT, third]) = some m ∧
    m.ctrl = [] := by
  have hc : ((third.match_class TagClass.context).bind
      (StructureTag.match_id 0)).bind StructureTag.expect_constructed
        = none := by
    rw [StructureTag.match_class]
    by_cases hcl : third.cls = TagClass.context
    · rw [if_pos hcl, Option.some_bind, StructureTag.match_id]
      by_cases hid : third.id = 0
      · rw [if_pos hid, Option.some_bind]
        rcases h3 with h3 | h3 | h3
        · exact absurd hcl h3
        · exact absurd hid h3
        · exact h3
      · rw [if_neg hid]; rfl
    · rw [if_neg hcl]; rfl
  have hc2 : ((third.match_class TagClass.context).bind
      (StructureTag.match_id 0)).bind (fun a =>
        Option.map (fun inner => List.filterMap
          (fun t => LdapControl.try_from t) inner)
          a.expect_constructed) = none := by
    rcases hx : (third.match_class TagClass.context).bind
        (StructureTag.match_id 0) with _ | t
    · rfl
    · rw [hx, Option.some_bind] at hc
      rw [Option.some_bind, hc]
      rfl
  have heq : LdapMsg.try_from strict
      (.cons .universal Types.Sequence [mT, oT, third]) =
      LdapMsg.try_from strict
        (.cons .universal Types.Sequence [mT, oT]) := by
    simp [LdapMsg.try_from, match_id_cons, expect_constructed_cons, hc2,
      Types.Sequence]
  exact ⟨heq.trans h2, ldapMsg_ctrl_two strict mT oT m h2⟩

theorem C10_witness :
    LdapMsg.try_from false (.cons .universal Types.Sequence
      [.prim .universal Types.Integer [1], .prim .application 2 [],
        .prim .universal 4 [97]]) =
      some ⟨1, .unbindRequest, []⟩ ∧
    (⟨1, .unbindRequest, []⟩ : LdapMsg).ctrl = [] :=
  C10_third_child_ignored false
    (.prim .universal Types.Integer [1]) (.prim .application 2 [])
    (.prim .universal 4 [97]) ⟨1, .unbindRequest, []⟩
    (Or.inl (by decide)) (by decide)

end LdapProto
